import Mathlib

/-!
Verification of the UCN 2018 transmission analysis (`UCN.py`, `transmission.py`).

Shallow embedding conventions:
* Python floats are modelled as real numbers (`ℝ`).
* Python expressions that can raise are modelled in `Except PyErr`:
  division raises `ZeroDivisionError` on a zero divisor, and a missing
  dictionary key raises `KeyError`.  `pydiv` models the Python `/` operator.
* `numpy` reductions (`mean`, `std`) never raise; they are modelled as total
  functions (`npMean`, `npStd`).
* Python's `min`/`max` over a list are modelled by `listMin`/`listMax`;
  Python raises on an empty list, the models return the unused default `0`
  there (all uses in the claims are on nonempty lists).
* `math.sqrt` is modelled by `Real.sqrt` (all uses are on nonnegative
  arguments).
-/

noncomputable section

/-- Python exceptions that the embedded fragments can raise. -/
inductive PyErr
  | zeroDiv
  | keyError
  | valueError
  deriving DecidableEq

/-- The Python division operator on floats: raises `ZeroDivisionError`
on a zero divisor, otherwise returns the real quotient. -/
def pydiv (x y : ℝ) : Except PyErr ℝ :=
  if y = 0 then .error .zeroDiv else .ok (x / y)

/-- Bind of a success in `Except` reduces to the continuation. -/
@[simp] theorem exceptOk_bind {α β : Type} (a : α) (f : α → Except PyErr β) :
    (Except.ok a >>= f) = f a := rfl

/-- Bind of an error in `Except` propagates the error. -/
@[simp] theorem exceptError_bind {α β : Type} (e : PyErr) (f : α → Except PyErr β) :
    ((Except.error e : Except PyErr α) >>= f) = .error e := rfl

/-- Python `min` over a list of floats (raises on `[]` in Python; the model
returns 0 there, a case not exercised by the program on accepted data). -/
def listMin : List ℝ → ℝ
  | [] => 0
  | x :: xs => xs.foldl min x

/-- Python `max` over a list of floats (same empty-list convention as
`listMin`). -/
def listMax : List ℝ → ℝ
  | [] => 0
  | x :: xs => xs.foldl max x

/-- `numpy.mean`: sum divided by length. -/
def npMean (l : List ℝ) : ℝ := l.sum / l.length

/-- `numpy.std`: population standard deviation
`sqrt(mean((x - mean)^2))`. -/
def npStd (l : List ℝ) : ℝ :=
  Real.sqrt ((l.map (fun x => (x - npMean l) ^ 2)).sum / l.length)

/-- The two detector names used as keys of `UCN.DetectorBackground`. -/
inductive Detector
  | li6
  | he3
  deriving DecidableEq

namespace UCN

/-- `UCN.DetectorBackground = {'li6': (2.16, 0.03), 'he3': (0.0403, 0.0017)}`:
per-detector background rate and rate uncertainty. -/
def DetectorBackground : Detector → ℝ × ℝ
  | .li6 => (2.16, 0.03)
  | .he3 => (0.0403, 0.0017)

/-- Zip of four lists into quadruples, truncating to the shortest list,
as Python's `zip` does. -/
def zip4 (a b c d : List ℝ) : List (ℝ × ℝ × ℝ × ℝ) :=
  (a.zip (b.zip (c.zip d))).map fun p => (p.1, p.2.1, p.2.2.1, p.2.2.2)

/-- The element of the `bgsub` comprehension in
`UCN.SubtractBackgroundAndNormalize`:
`c - DetectorBackground[detector][0]*cd if c > 0 else 0.`. -/
def bgsubElem (detector : Detector) (c cd : ℝ) : ℝ :=
  if 0 < c then c - (DetectorBackground detector).1 * cd else 0

/-- The element of the `bgsuberr` comprehension:
`sqrt(c + DetectorBackground[detector][1]**2*cd**2) if c > 0 else 0.`. -/
def bgsuberrElem (detector : Detector) (c cd : ℝ) : ℝ :=
  if 0 < c then Real.sqrt (c + (DetectorBackground detector).2 ^ 2 * cd ^ 2) else 0

/-- One element of the `normerr` comprehension:
`sqrt((bgserr/m)**2 + (dm*bgs/m**2)**2)`, with both divisions fallible. -/
def normerrElem (q : ℝ × ℝ × ℝ × ℝ) : Except PyErr ℝ := do
  let a ← pydiv q.1 q.2.2.1
  let b ← pydiv (q.2.2.2 * q.2.1) (q.2.2.1 ^ 2)
  pure (Real.sqrt (a ^ 2 + b ^ 2))

/-- `UCN.SubtractBackgroundAndNormalize(counts, countdurations, detector,
normalization, normalizationerr)`: background subtraction (clamped to zero
signal and zero error for non-positive raw counts) followed by per-element
normalization with first-order error propagation. -/
def SubtractBackgroundAndNormalize (counts countdurations : List ℝ)
    (detector : Detector) (normalization normalizationerr : List ℝ) :
    Except PyErr (List ℝ × List ℝ) := do
  let bgsub := (counts.zip countdurations).map fun p => bgsubElem detector p.1 p.2
  let bgsuberr := (counts.zip countdurations).map fun p => bgsuberrElem detector p.1 p.2
  let norm ← (bgsub.zip normalization).mapM fun p => pydiv p.1 p.2
  let normerr ← (zip4 bgsuberr bgsub normalization normalizationerr).mapM normerrElem
  pure (norm, normerr)

/-- `UCN.SubtractBackgroundAndNormalizeRate`: as above, then divides value
and error by the per-element duration. -/
def SubtractBackgroundAndNormalizeRate (counts countdurations : List ℝ)
    (detector : Detector) (normalization normalizationerr : List ℝ) :
    Except PyErr (List ℝ × List ℝ) := do
  let (norm, normerr) ←
    SubtractBackgroundAndNormalize counts countdurations detector normalization normalizationerr
  let r ← (norm.zip countdurations).mapM fun p => pydiv p.1 p.2
  let re ← (normerr.zip countdurations).mapM fun p => pydiv p.1 p.2
  pure (r, re)

/-- `UCN.BackgroundRate(counts, durations)`:
`(sum(counts)/sum(durations), sqrt(sum(counts))/sum(durations))`. -/
def BackgroundRate (counts durations : List ℝ) : Except PyErr (ℝ × ℝ) := do
  let r ← pydiv counts.sum durations.sum
  let e ← pydiv (Real.sqrt counts.sum) durations.sum
  pure (r, e)

end UCN

/-- Inversion for a successful `Except` bind. -/
theorem except_bind_ok {α β : Type} {x : Except PyErr α} {f : α → Except PyErr β}
    {b : β} (h : x >>= f = .ok b) : ∃ a, x = .ok a ∧ f a = .ok b := by
  cases x with
  | error e => exact absurd h (by simp [Bind.bind, Except.bind])
  | ok a => exact ⟨a, rfl, by simpa [Bind.bind, Except.bind] using h⟩

/-- A successful `pydiv` has a nonzero divisor and returns the real quotient. -/
theorem pydiv_ok {x y v : ℝ} (h : pydiv x y = .ok v) : y ≠ 0 ∧ v = x / y := by
  by_cases hy : y = 0
  · simp [pydiv, hy] at h
  · refine ⟨hy, ?_⟩
    simpa [pydiv, hy] using h.symm

/-- A successful elementwise division (`[a/b for a, b in zip(...)]`) has all
divisors nonzero and equals the pointwise real quotient map. -/
theorem mapM_pydiv_ok {xs : List (ℝ × ℝ)} {r : List ℝ}
    (h : xs.mapM (fun p => pydiv p.1 p.2) = .ok r) :
    (∀ p ∈ xs, p.2 ≠ 0) ∧ r = xs.map fun p => p.1 / p.2 := by
  induction xs generalizing r with
  | nil =>
    simp only [List.mapM_nil, pure, Except.pure] at h
    cases h
    simp
  | cons a as ih =>
    rw [List.mapM_cons] at h
    obtain ⟨v, hv, h⟩ := except_bind_ok h
    obtain ⟨t, ht, h⟩ := except_bind_ok h
    obtain ⟨ha, hva⟩ := pydiv_ok hv
    obtain ⟨hne, ht'⟩ := ih ht
    have hr : r = v :: t := by simpa [pure, Except.pure] using h.symm
    subst hr hva ht'
    refine ⟨?_, by simp⟩
    intro p hp
    rcases List.mem_cons.mp hp with rfl | hp'
    · exact ha
    · exact hne p hp'

/-- A successful `normerrElem` has its normalization nonzero and computes
the quadrature error formula. -/
theorem normerrElem_ok {q : ℝ × ℝ × ℝ × ℝ} {v : ℝ} (h : UCN.normerrElem q = .ok v) :
    q.2.2.1 ≠ 0 ∧
      v = Real.sqrt ((q.1 / q.2.2.1) ^ 2 + (q.2.2.2 * q.2.1 / q.2.2.1 ^ 2) ^ 2) := by
  unfold UCN.normerrElem at h
  obtain ⟨a, ha, h⟩ := except_bind_ok h
  obtain ⟨b, hb, h⟩ := except_bind_ok h
  obtain ⟨hm, hav⟩ := pydiv_ok ha
  obtain ⟨hm2, hbv⟩ := pydiv_ok hb
  simp only [pure, Except.pure, Except.ok.injEq] at h
  subst hav hbv h
  exact ⟨hm, rfl⟩

/-- A successful `normerr` comprehension equals the pointwise quadrature
formula map. -/
theorem mapM_normerrElem_ok {qs : List (ℝ × ℝ × ℝ × ℝ)} {r : List ℝ}
    (h : qs.mapM UCN.normerrElem = .ok r) :
    r = qs.map fun q =>
      Real.sqrt ((q.1 / q.2.2.1) ^ 2 + (q.2.2.2 * q.2.1 / q.2.2.1 ^ 2) ^ 2) := by
  induction qs generalizing r with
  | nil =>
    simp only [List.mapM_nil, pure, Except.pure] at h
    cases h
    simp
  | cons a as ih =>
    rw [List.mapM_cons] at h
    obtain ⟨v, hv, h⟩ := except_bind_ok h
    obtain ⟨t, ht, h⟩ := except_bind_ok h
    have hr : r = v :: t := by simpa [pure, Except.pure] using h.symm
    subst hr
    simp [(normerrElem_ok hv).2, ih ht]

set_option maxHeartbeats 1000000 in
/-- Elementwise characterization of a successful
`SubtractBackgroundAndNormalize` call on equal-length inputs. -/
theorem sbn_ok_elem (counts cds ms dms : List ℝ) (det : Detector) (v e : List ℝ)
    (hlen1 : cds.length = counts.length) (hlen2 : ms.length = counts.length)
    (hlen3 : dms.length = counts.length)
    (h : UCN.SubtractBackgroundAndNormalize counts cds det ms dms = .ok (v, e))
    (i : ℕ) (hi : i < counts.length) :
    v.length = counts.length ∧ e.length = counts.length ∧ ms.getD i 0 ≠ 0 ∧
      v.getD i 0 = UCN.bgsubElem det (counts.getD i 0) (cds.getD i 0) / ms.getD i 0 ∧
      e.getD i 0 = Real.sqrt
        ((UCN.bgsuberrElem det (counts.getD i 0) (cds.getD i 0) / ms.getD i 0) ^ 2 +
          (dms.getD i 0 * UCN.bgsubElem det (counts.getD i 0) (cds.getD i 0) /
            (ms.getD i 0) ^ 2) ^ 2) := by
  unfold UCN.SubtractBackgroundAndNormalize at h
  obtain ⟨norm, hnorm, h⟩ := except_bind_ok h
  obtain ⟨normerr, hnormerr, h⟩ := except_bind_ok h
  have hpair : v = norm ∧ e = normerr := by
    simp only [pure, Except.pure, Except.ok.injEq, Prod.mk.injEq] at h
    exact ⟨h.1.symm, h.2.symm⟩
  obtain ⟨rfl, rfl⟩ := hpair
  obtain ⟨hms, hv⟩ := mapM_pydiv_ok hnorm
  have he := mapM_normerrElem_ok hnormerr
  have hzc : (counts.zip cds).length = counts.length := by
    rw [List.length_zip, hlen1, min_self]
  have hbl : ((counts.zip cds).map fun p => UCN.bgsubElem det p.1 p.2).length
      = counts.length := by simp [hzc]
  have hbl' : ((counts.zip cds).map fun p => UCN.bgsuberrElem det p.1 p.2).length
      = counts.length := by simp [hzc]
  have hvl : v.length = counts.length := by
    rw [hv, List.length_map, List.length_zip, hbl, hlen2, min_self]
  have hel : e.length = counts.length := by
    rw [he, List.length_map, UCN.zip4, List.length_map, List.length_zip,
      List.length_zip, List.length_zip, hbl, hbl', hlen2, hlen3]
    omega
  have hzli : i < (((counts.zip cds).map fun p => UCN.bgsubElem det p.1 p.2).zip ms).length := by
    rw [List.length_zip, hbl, hlen2, min_self]
    omega
  have hmsne : ms.getD i 0 ≠ 0 := by
    have hmem := List.getElem_mem hzli
    have := hms _ hmem
    rw [List.getElem_zip] at this
    rwa [List.getD_eq_getElem ms 0 (show i < ms.length by omega)]
  refine ⟨hvl, hel, hmsne, ?_, ?_⟩
  · rw [hv]
    have hL : i < ((((counts.zip cds).map fun p => UCN.bgsubElem det p.1 p.2).zip ms).map
        fun p => p.1 / p.2).length := by
      rw [List.length_map]
      omega
    rw [List.getD_eq_getElem _ _ hL,
      List.getD_eq_getElem counts 0 (show i < counts.length by omega),
      List.getD_eq_getElem cds 0 (show i < cds.length by omega),
      List.getD_eq_getElem ms 0 (show i < ms.length by omega)]
    simp only [List.getElem_map, List.getElem_zip]
  · rw [he]
    have hql : (UCN.zip4 ((counts.zip cds).map fun p => UCN.bgsuberrElem det p.1 p.2)
        ((counts.zip cds).map fun p => UCN.bgsubElem det p.1 p.2) ms dms).length
        = counts.length := by
      rw [UCN.zip4, List.length_map, List.length_zip, List.length_zip, List.length_zip,
        hbl, hbl', hlen2, hlen3]
      omega
    have hL : i < ((UCN.zip4 ((counts.zip cds).map fun p => UCN.bgsuberrElem det p.1 p.2)
        ((counts.zip cds).map fun p => UCN.bgsubElem det p.1 p.2) ms dms).map fun q =>
          Real.sqrt ((q.1 / q.2.2.1) ^ 2 + (q.2.2.2 * q.2.1 / q.2.2.1 ^ 2) ^ 2)).length := by
      rw [List.length_map]
      omega
    rw [List.getD_eq_getElem _ _ hL,
      List.getD_eq_getElem counts 0 (show i < counts.length by omega),
      List.getD_eq_getElem cds 0 (show i < cds.length by omega),
      List.getD_eq_getElem ms 0 (show i < ms.length by omega),
      List.getD_eq_getElem dms 0 (show i < dms.length by omega)]
    simp only [UCN.zip4, List.getElem_map, List.getElem_zip]

/-- C7: `BackgroundRate(counts, durations)` returns
`(Σcounts/Σdurations, sqrt(Σcounts)/Σdurations)` for nonempty inputs with
nonzero total duration; `BackgroundRate([0],[10]) = (0, 0)`;
`BackgroundRate([100],[10]) = (10, 1)`; and the call fails (raises
`ZeroDivisionError`) when the total duration is zero. -/
theorem backgroundRate_spec :
    (∀ counts durations : List ℝ, counts ≠ [] → durations ≠ [] → durations.sum ≠ 0 →
      UCN.BackgroundRate counts durations =
        .ok (counts.sum / durations.sum, Real.sqrt counts.sum / durations.sum))
    ∧ UCN.BackgroundRate [0] [10] = .ok (0, 0)
    ∧ UCN.BackgroundRate [100] [10] = .ok (10, 1)
    ∧ (∀ counts durations : List ℝ, durations.sum = 0 →
      UCN.BackgroundRate counts durations = .error .zeroDiv) := by
  have hok : ∀ counts durations : List ℝ, durations.sum ≠ 0 →
      UCN.BackgroundRate counts durations =
        .ok (counts.sum / durations.sum, Real.sqrt counts.sum / durations.sum) := by
    intro counts durations hd
    simp only [UCN.BackgroundRate, pydiv, if_neg hd]
    rfl
  refine ⟨fun c d _ _ hd => hok c d hd, ?_, ?_, ?_⟩
  · rw [hok [0] [10] (by norm_num)]
    norm_num
  · rw [hok [100] [10] (by norm_num)]
    norm_num
    rw [show (100 : ℝ) = 10 ^ 2 by norm_num, Real.sqrt_sq (by norm_num : (0:ℝ) ≤ 10)]
    norm_num
  · intro counts durations hd
    simp only [UCN.BackgroundRate, pydiv, if_pos hd]
    rfl

/-- C7 witness: the general clause of `backgroundRate_spec` applied to the
concrete input `([0], [10])`. -/
theorem backgroundRate_spec_witness :
    (([(0:ℝ)] : List ℝ) ≠ [] ∧ ([(10:ℝ)] : List ℝ) ≠ [] ∧
      ([(10:ℝ)] : List ℝ).sum ≠ 0) ∧
    UCN.BackgroundRate [0] [10] =
      .ok (List.sum [(0:ℝ)] / List.sum [(10:ℝ)],
        Real.sqrt (List.sum [(0:ℝ)]) / List.sum [(10:ℝ)]) :=
  ⟨⟨by simp, by simp, by norm_num⟩,
    backgroundRate_spec.1 [0] [10] (by simp) (by simp) (by norm_num)⟩

/-- C6 counterexample: with a raw count `0 ≤ 0` but a zero normalization
entry, `SubtractBackgroundAndNormalize` raises `ZeroDivisionError` instead of
returning value 0 and error 0 for that element, so the output is not
independent of the other inputs. -/
theorem subtractBackgroundAndNormalize_zero_norm_raises :
    UCN.SubtractBackgroundAndNormalize [0] [1] .li6 [0] [0] = .error .zeroDiv := by
  unfold UCN.SubtractBackgroundAndNormalize
  simp only [List.zip_cons_cons, List.zip_nil_right, List.map_cons, List.map_nil, UCN.zip4]
  rw [List.mapM_cons, List.mapM_nil]
  simp only [UCN.bgsubElem, UCN.bgsuberrElem, pydiv]
  norm_num

/-- C6 (amended): on equal-length inputs, whenever
`SubtractBackgroundAndNormalize` returns at all (which requires the
normalization entries to be nonzero; a zero entry raises
`ZeroDivisionError`), an element with raw count `c ≤ 0` yields value 0 and
error 0 regardless of the other inputs for that element, and an element with
`c > 0` yields value `(c - rate*duration)/normalization` and error
`sqrt((sqrt(c + rateErr^2*duration^2)/normalization)^2 +
(normalizationErr*(c - rate*duration)/normalization^2)^2)`. -/
theorem subtractBackgroundAndNormalize_clamp_spec
    (counts cds ms dms : List ℝ) (det : Detector) (v e : List ℝ)
    (hlen1 : cds.length = counts.length) (hlen2 : ms.length = counts.length)
    (hlen3 : dms.length = counts.length)
    (h : UCN.SubtractBackgroundAndNormalize counts cds det ms dms = .ok (v, e))
    (i : ℕ) (hi : i < counts.length) :
    (counts.getD i 0 ≤ 0 → v.getD i 0 = 0 ∧ e.getD i 0 = 0) ∧
    (0 < counts.getD i 0 →
      v.getD i 0 =
        (counts.getD i 0 - (UCN.DetectorBackground det).1 * cds.getD i 0) / ms.getD i 0 ∧
      e.getD i 0 = Real.sqrt
        ((Real.sqrt (counts.getD i 0 + (UCN.DetectorBackground det).2 ^ 2 *
            (cds.getD i 0) ^ 2) / ms.getD i 0) ^ 2 +
         (dms.getD i 0 * (counts.getD i 0 - (UCN.DetectorBackground det).1 * cds.getD i 0) /
            (ms.getD i 0) ^ 2) ^ 2)) := by
  obtain ⟨-, -, -, hvi, hei⟩ := sbn_ok_elem counts cds ms dms det v e hlen1 hlen2 hlen3 h i hi
  constructor
  · intro hc
    have hb : UCN.bgsubElem det (counts.getD i 0) (cds.getD i 0) = 0 := by
      rw [UCN.bgsubElem, if_neg (not_lt.mpr hc)]
    have hb' : UCN.bgsuberrElem det (counts.getD i 0) (cds.getD i 0) = 0 := by
      rw [UCN.bgsuberrElem, if_neg (not_lt.mpr hc)]
    refine ⟨?_, ?_⟩
    · rw [hvi, hb, zero_div]
    · rw [hei, hb, hb']
      simp
  · intro hc
    have hb : UCN.bgsubElem det (counts.getD i 0) (cds.getD i 0) =
        counts.getD i 0 - (UCN.DetectorBackground det).1 * cds.getD i 0 := by
      rw [UCN.bgsubElem, if_pos hc]
    have hb' : UCN.bgsuberrElem det (counts.getD i 0) (cds.getD i 0) =
        Real.sqrt (counts.getD i 0 + (UCN.DetectorBackground det).2 ^ 2 *
          (cds.getD i 0) ^ 2) := by
      rw [UCN.bgsuberrElem, if_pos hc]
    exact ⟨by rw [hvi, hb], by rw [hei, hb, hb']⟩

/-- C6 witness: `SubtractBackgroundAndNormalize([-1], [1], li6, [5], [7])`
succeeds and its single element (raw count `-1 ≤ 0`) has value 0 and
error 0. -/
theorem subtractBackgroundAndNormalize_clamp_spec_witness :
    (UCN.SubtractBackgroundAndNormalize [-1] [1] .li6 [5] [7] = .ok ([0], [0])) ∧
    (([(-1:ℝ)] : List ℝ).getD 0 0 ≤ 0) ∧
    ([(0:ℝ)] : List ℝ).getD 0 0 = 0 ∧ ([(0:ℝ)] : List ℝ).getD 0 0 = 0 := by
  have heval : UCN.SubtractBackgroundAndNormalize [-1] [1] .li6 [5] [7] = .ok ([0], [0]) := by
    unfold UCN.SubtractBackgroundAndNormalize
    simp only [List.zip_cons_cons, List.zip_nil_right, List.map_cons, List.map_nil, UCN.zip4]
    rw [List.mapM_cons, List.mapM_nil, List.mapM_cons, List.mapM_nil]
    simp [UCN.bgsubElem, UCN.bgsuberrElem, UCN.normerrElem, pydiv]
    norm_num
  have happ := subtractBackgroundAndNormalize_clamp_spec [-1] [1] [5] [7] .li6 [0] [0]
    (by simp) (by simp) (by simp) heval 0 (by simp)
  exact ⟨heval, by simp, happ.1 (by simp)⟩

/-- C10: the clamp in `SubtractBackgroundAndNormalize` acts only on the raw
count: a positive raw count smaller than `rate*duration` yields a strictly
negative value (with positive normalization) and a strictly positive error;
the subtracted result is not clamped to zero. -/
theorem subtractBackgroundAndNormalize_no_post_clamp
    (counts cds ms dms : List ℝ) (det : Detector) (v e : List ℝ)
    (hlen1 : cds.length = counts.length) (hlen2 : ms.length = counts.length)
    (hlen3 : dms.length = counts.length)
    (h : UCN.SubtractBackgroundAndNormalize counts cds det ms dms = .ok (v, e))
    (i : ℕ) (hi : i < counts.length)
    (hc : 0 < counts.getD i 0)
    (hlt : counts.getD i 0 < (UCN.DetectorBackground det).1 * cds.getD i 0)
    (hm : 0 < ms.getD i 0) :
    v.getD i 0 < 0 ∧ 0 < e.getD i 0 := by
  obtain ⟨-, -, -, hvi, hei⟩ := sbn_ok_elem counts cds ms dms det v e hlen1 hlen2 hlen3 h i hi
  have hb : UCN.bgsubElem det (counts.getD i 0) (cds.getD i 0) =
      counts.getD i 0 - (UCN.DetectorBackground det).1 * cds.getD i 0 := by
    rw [UCN.bgsubElem, if_pos hc]
  have hberr : 0 < UCN.bgsuberrElem det (counts.getD i 0) (cds.getD i 0) := by
    rw [UCN.bgsuberrElem, if_pos hc]
    exact Real.sqrt_pos.mpr (by positivity)
  constructor
  · rw [hvi, hb]
    exact div_neg_of_neg_of_pos (by linarith) hm
  · rw [hei]
    apply Real.sqrt_pos.mpr
    have h1 : 0 < (UCN.bgsuberrElem det (counts.getD i 0) (cds.getD i 0) / ms.getD i 0) ^ 2 := by
      apply pow_pos
      exact div_pos hberr hm
    positivity

/-- C10 witness: the element `counts = 1 < 2.16 = rate*duration` with
normalization 2 gives a strictly negative value and a positive error. -/
theorem subtractBackgroundAndNormalize_no_post_clamp_witness :
    (UCN.SubtractBackgroundAndNormalize [1] [1] .li6 [2] [0] =
      .ok ([(1 - 2.16 * 1) / 2],
        [Real.sqrt ((Real.sqrt (1 + 0.03 ^ 2 * 1 ^ 2) / 2) ^ 2 +
          (0 * (1 - 2.16 * 1) / 2 ^ 2) ^ 2)])) ∧
    ((0:ℝ) < 1 ∧ (1:ℝ) < 2.16 * 1 ∧ (0:ℝ) < 2) ∧
    ([(1 - 2.16 * 1) / 2] : List ℝ).getD 0 0 < 0 ∧
    (0:ℝ) < ([Real.sqrt ((Real.sqrt (1 + 0.03 ^ 2 * 1 ^ 2) / 2) ^ 2 +
        (0 * (1 - 2.16 * 1) / 2 ^ 2) ^ 2)] : List ℝ).getD 0 0 := by
  have heval : UCN.SubtractBackgroundAndNormalize [1] [1] .li6 [2] [0] =
      .ok ([(1 - 2.16 * 1) / 2],
        [Real.sqrt ((Real.sqrt (1 + 0.03 ^ 2 * 1 ^ 2) / 2) ^ 2 +
          (0 * (1 - 2.16 * 1) / 2 ^ 2) ^ 2)]) := by
    unfold UCN.SubtractBackgroundAndNormalize
    simp only [List.zip_cons_cons, List.zip_nil_right, List.map_cons, List.map_nil, UCN.zip4]
    rw [List.mapM_cons, List.mapM_nil, List.mapM_cons, List.mapM_nil]
    simp [UCN.bgsubElem, UCN.bgsuberrElem, UCN.normerrElem, UCN.DetectorBackground, pydiv]
  have happ := subtractBackgroundAndNormalize_no_post_clamp [1] [1] [2] [0] .li6 _ _
    (by simp) (by simp) (by simp) heval 0 (by simp)
    (by norm_num) (by norm_num [UCN.DetectorBackground]) (by norm_num)
  exact ⟨heval, ⟨by norm_num, by norm_num, by norm_num⟩, happ.1, happ.2⟩

/-! ### Histograms (model of the ROOT `TH1` operations used by the program) -/

/-- A one-dimensional ROOT histogram: `nbins` regular bins on
`[xmin, xmax]`; `content b`/`err2 b` are the content and squared error of
bin `b` (ROOT convention: bin 0 is underflow, bins `1..nbins` are regular,
bin `nbins+1` is overflow). -/
structure Hist where
  nbins : ℕ
  xmin : ℝ
  xmax : ℝ
  content : ℕ → ℝ
  err2 : ℕ → ℝ

/-- Width of a regular bin. -/
def Hist.binWidth (h : Hist) : ℝ := (h.xmax - h.xmin) / h.nbins

/-- ROOT `TH1::FindBin`: the bin index a value falls into. -/
def Hist.findBin (h : Hist) (t : ℝ) : ℕ :=
  if t < h.xmin then 0
  else if h.xmax ≤ t then h.nbins + 1
  else (⌊(t - h.xmin) / h.binWidth⌋ + 1).toNat

/-- A histogram filled from a list of hit times (`Fill` in a loop followed by
`Sumw2`; for unit-weight fills the squared bin error equals the content). -/
def histFromHits (nbins : ℕ) (xmin xmax : ℝ) (hits : List ℝ) : Hist :=
  { nbins := nbins, xmin := xmin, xmax := xmax
    content := fun b =>
      (hits.countP fun t => decide ((Hist.mk nbins xmin xmax (fun _ => 0) fun _ => 0).findBin t = b) : ℕ)
    err2 := fun b =>
      (hits.countP fun t => decide ((Hist.mk nbins xmin xmax (fun _ => 0) fun _ => 0).findBin t = b) : ℕ) }

/-- ROOT `TH1::Fill` repeated over a list of values, accumulating onto an
existing histogram (used for the per-experiment channel histogram). -/
def Hist.fillList (h : Hist) (ts : List ℝ) : Hist :=
  { h with
    content := fun b => h.content b + (ts.countP fun t => decide (h.findBin t = b) : ℕ)
    err2 := fun b => h.err2 b + (ts.countP fun t => decide (h.findBin t = b) : ℕ) }

/-- ROOT `TH1::GetBinLowEdge` (as a real formula, also for the `-1` returned
by a failed `FindFirstBinAbove`). -/
def Hist.binLowEdge (h : Hist) (b : ℤ) : ℝ := h.xmin + ((b : ℝ) - 1) * h.binWidth

/-- ROOT `TH1::FindFirstBinAbove(threshold)`: first regular bin whose content
exceeds the threshold, `-1` if none. -/
def Hist.findFirstBinAbove (h : Hist) (th : ℝ) : ℤ :=
  match (List.range h.nbins).find? fun i => decide (th < h.content (i + 1)) with
  | some i => (i : ℤ) + 1
  | none => -1

/-! ### Cycle records and the cycle filter (`transmission.py`, `ReadCycles`) -/

/-- One raw cycle as delivered by the external reader: per-period integrated
counts and durations (period 1 = counting, period 0 = monitor/irradiation,
period 10 = background), slow-control reading arrays, valve states, and hit
timestamp/channel arrays per detector. -/
structure CycleData where
  runnumber : ℕ
  cyclenumber : ℕ
  start : ℝ
  countsLi6 : ℕ → ℝ
  countsHe3 : ℕ → ℝ
  durations : ℕ → ℝ
  B1V_KSM_PREDCUR : List ℝ
  UCN_UGD_IV1_STATON : List ℝ
  UCN_EXP_IG5_RDVAC : List ℝ
  UCN_ISO_TS11_RDTEMP : List ℝ
  UCN_ISO_TS12_RDTEMP : List ℝ
  UCN_ISO_TS14_RDTEMP : List ℝ
  UCN_ISO_PG9L_RDPRESS : List ℝ
  UCN_ISO_PG9H_RDPRESS : List ℝ
  SCMVoltages3 : List ℝ
  valve0state : ℕ → ℝ
  valve1state : ℕ → ℝ
  beamonduration : ℝ
  beamoffduration : ℝ
  Li6hits : List ℝ
  He3hits : List ℝ
  Li6channels : List ℝ

/-- The reasons (printed by `ReadCycles` as `SKIPPING cycle ...`) for which a
cycle is rejected; each constructor carries the values quoted in the log
message (the low-beam reason carries the 0.1 uA threshold it cites). -/
inductive SkipReason
  | lowBeamCurrent (threshold minCurrent : ℝ)
  | beamFluctuation (std : ℝ)
  | missingLi6Data
  | iv1NeverOpened
  | ig5Active
  | li6OnlyBackground
  | li6HighBackground
  | notEnoughMonitorCounts

/-- The cycle filter chain of `ReadCycles` (countperiod = 1,
monitorperiod = 0, backgroundperiod = 10): returns the first applicable
rejection reason, or `none` when the cycle is accepted. -/
def filterCycle (c : CycleData) : Option SkipReason :=
  if listMin c.B1V_KSM_PREDCUR < 0.1 then
    some (.lowBeamCurrent 0.1 (listMin c.B1V_KSM_PREDCUR))
  else if 0.02 < npStd c.B1V_KSM_PREDCUR then
    some (.beamFluctuation (npStd c.B1V_KSM_PREDCUR))
  else if c.countsLi6 10 = 0 then some .missingLi6Data
  else if listMax c.UCN_UGD_IV1_STATON < 1 then some .iv1NeverOpened
  else if ∃ ig5 ∈ c.UCN_EXP_IG5_RDVAC, 1e-7 < ig5 ∧ ig5 < 1e-2 then some .ig5Active
  else if c.countsLi6 1 < 10 * c.durations 1 then some .li6OnlyBackground
  else if 10 * c.durations 10 < c.countsLi6 10 then some .li6HighBackground
  else if c.countsHe3 1 < 300 then some .notEnoughMonitorCounts
  else none

/-- The per-experiment accumulator of `ReadCycles`: the configured TCN
identifier and run set, and one in-order sequence per extracted per-cycle
quantity (`productionrate`/`productionrateerr` and the `he3background`/
`he3irradiation` lists are initialized but never appended by the source). -/
structure Exp where
  TCN : String
  runs : List ℕ
  start : List ℝ
  cyclenumber : List ℝ
  beamcurrent : List (List ℝ)
  li6counts : List ℝ
  countduration : List ℝ
  monitorcounts : List ℝ
  monitorduration : List ℝ
  li6counts2 : List ℝ
  countduration2 : List ℝ
  monitorcounts2 : List ℝ
  monitorduration2 : List ℝ
  li6background : List ℝ
  he3background : List ℝ
  li6irradiation : List ℝ
  he3irradiation : List ℝ
  irradiationduration : List ℝ
  backgroundduration : List ℝ
  mintemperature : List ℝ
  maxtemperature : List ℝ
  minvaporpressure : List ℝ
  maxvaporpressure : List ℝ
  SCMcurrent : List (List ℝ)
  Li6rate : List Hist
  He3rate : List Hist
  li6window : List (ℝ × ℝ)
  channels : Hist
  productionrate : List ℝ
  productionrateerr : List ℝ

/-- The initialization loop of `ReadCycles`: every per-cycle sequence is
reset to empty and a fresh 10-bin channel histogram is created. -/
def initExp (ex : Exp) : Exp :=
  { TCN := ex.TCN, runs := ex.runs, start := [], cyclenumber := [], beamcurrent := []
    li6counts := [], countduration := [], monitorcounts := [], monitorduration := []
    li6counts2 := [], countduration2 := [], monitorcounts2 := [], monitorduration2 := []
    li6background := [], he3background := [], li6irradiation := [], he3irradiation := []
    irradiationduration := [], backgroundduration := []
    mintemperature := [], maxtemperature := [], minvaporpressure := [], maxvaporpressure := []
    SCMcurrent := [], Li6rate := [], He3rate := [], li6window := []
    channels := ⟨10, 0, 10, fun _ => 0, fun _ => 0⟩
    productionrate := [], productionrateerr := [] }

/-- `duration = int(math.floor(cycle.beamonduration + cycle.beamoffduration))`. -/
def cycleDuration (c : CycleData) : ℤ := ⌊c.beamonduration + c.beamoffduration⌋

/-- The per-cycle Li6 rate histogram: `duration*20` bins on `[0, duration]`
filled with the Li6 hit times. -/
def li6rateHist (c : CycleData) : Hist :=
  histFromHits ((cycleDuration c).toNat * 20) 0 ((cycleDuration c : ℤ) : ℝ) c.Li6hits

/-- The per-cycle He3 rate histogram: `duration` bins on `[0, duration]`
filled with the He3 hit times. -/
def he3rateHist (c : CycleData) : Hist :=
  histFromHits (cycleDuration c).toNat 0 ((cycleDuration c : ℤ) : ℝ) c.He3hits

/-- The dynamic Li6 secondary window: low edge of the first Li6 bin above
content 10, minus 60 s, with a fixed 10 s width. -/
def li6Window (c : CycleData) : ℝ × ℝ :=
  let triggertime := (li6rateHist c).binLowEdge ((li6rateHist c).findFirstBinAbove 10) - 60
  (triggertime, triggertime + 10)

/-- The fixed He3 secondary window `(-10., 0.)`. -/
def he3Window : ℝ × ℝ := (-10, 0)

/-- The Li6 hits falling in the (shifted) dynamic secondary window. -/
def li6Counts2 (c : CycleData) : ℝ :=
  (c.Li6hits.countP fun t =>
    decide (c.durations 0 + (li6Window c).1 < t ∧ t < c.durations 0 + (li6Window c).2) : ℕ)

/-- The He3 hits falling in the (shifted) fixed secondary window. -/
def monitorCounts2 (c : CycleData) : ℝ :=
  (c.He3hits.countP fun t =>
    decide (c.durations 0 + he3Window.1 < t ∧ t < c.durations 0 + he3Window.2) : ℕ)

/-- The extraction body of `ReadCycles` for one accepted cycle assigned to
one experiment: appends one entry to every per-cycle sequence, builds the two
per-cycle rate histograms, computes the dynamic Li6 secondary window
(first Li6 bin above content 10, minus 60 s, width 10 s) and the fixed He3
secondary window (-10 s, 0 s). -/
def extract (c : CycleData) (ex : Exp) : Exp :=
  { ex with
    start := ex.start ++ [c.start]
    cyclenumber := ex.cyclenumber ++ [(c.cyclenumber : ℝ)]
    beamcurrent := ex.beamcurrent ++ [c.B1V_KSM_PREDCUR]
    mintemperature := ex.mintemperature ++
      [listMin [listMin c.UCN_ISO_TS11_RDTEMP, listMin c.UCN_ISO_TS12_RDTEMP,
        listMin c.UCN_ISO_TS14_RDTEMP]]
    maxtemperature := ex.maxtemperature ++
      [listMax [listMax c.UCN_ISO_TS11_RDTEMP, listMax c.UCN_ISO_TS12_RDTEMP,
        listMax c.UCN_ISO_TS14_RDTEMP]]
    minvaporpressure := ex.minvaporpressure ++
      [if 2 ≤ listMax c.UCN_ISO_PG9L_RDPRESS then listMin c.UCN_ISO_PG9H_RDPRESS
        else listMin c.UCN_ISO_PG9L_RDPRESS]
    maxvaporpressure := ex.maxvaporpressure ++
      [if 2 ≤ listMax c.UCN_ISO_PG9L_RDPRESS then listMax c.UCN_ISO_PG9H_RDPRESS
        else listMax c.UCN_ISO_PG9L_RDPRESS]
    SCMcurrent := ex.SCMcurrent ++ [c.SCMVoltages3.map fun v => v / 250e-6]
    Li6rate := ex.Li6rate ++ [li6rateHist c]
    He3rate := ex.He3rate ++ [he3rateHist c]
    li6counts := ex.li6counts ++ [c.countsLi6 1]
    countduration := ex.countduration ++ [c.durations 1]
    monitorcounts := ex.monitorcounts ++ [c.countsHe3 1]
    monitorduration := ex.monitorduration ++ [c.durations 1]
    li6window := ex.li6window ++ [li6Window c]
    li6counts2 := ex.li6counts2 ++ [li6Counts2 c]
    countduration2 := ex.countduration2 ++ [(li6Window c).2 - (li6Window c).1]
    monitorcounts2 := ex.monitorcounts2 ++ [monitorCounts2 c]
    monitorduration2 := ex.monitorduration2 ++ [he3Window.2 - he3Window.1]
    li6background := ex.li6background ++ [c.countsLi6 10]
    backgroundduration := ex.backgroundduration ++ [c.durations 10]
    li6irradiation := ex.li6irradiation ++ [c.countsLi6 0]
    irradiationduration := ex.irradiationduration ++ [c.durations 0]
    channels := ex.channels.fillList c.Li6channels }

/-- Processing of one raw cycle by `ReadCycles`: skip it if no experiment
claims its run number, skip it (continuing with the next cycle) if the
filter rejects it, otherwise extract it into every experiment whose run set
contains its run number. -/
def step (exps : List Exp) (c : CycleData) : List Exp :=
  if exps.any fun ex => decide (c.runnumber ∈ ex.runs) then
    match filterCycle c with
    | some _ => exps
    | none => exps.map fun ex => if c.runnumber ∈ ex.runs then extract c ex else ex
  else exps

/-- `ReadCycles(infile, experiments)`: initialize every accumulator, then
fold the filter/extract step over the cycle stream. -/
def ReadCycles (cycles : List CycleData) (exps : List Exp) : List Exp :=
  cycles.foldl step (exps.map initExp)

/-- The effect of one cycle on one experiment: extract if the run is claimed
and the cycle accepted, no change otherwise. -/
def stepOne (c : CycleData) (ex : Exp) : Exp :=
  if c.runnumber ∈ ex.runs then
    match filterCycle c with
    | some _ => ex
    | none => extract c ex
  else ex

theorem extract_runs (c : CycleData) (ex : Exp) : (extract c ex).runs = ex.runs := rfl

theorem initExp_runs (ex : Exp) : (initExp ex).runs = ex.runs := rfl

theorem stepOne_of_rejected {c : CycleData} (ex : Exp) {r : SkipReason}
    (hf : filterCycle c = some r) : stepOne c ex = ex := by
  unfold stepOne
  rw [hf]
  by_cases h : c.runnumber ∈ ex.runs
  · rw [if_pos h]
  · rw [if_neg h]

theorem stepOne_of_not_mem {c : CycleData} {ex : Exp}
    (hmem : c.runnumber ∉ ex.runs) : stepOne c ex = ex := by
  unfold stepOne
  rw [if_neg hmem]

theorem stepOne_of_accepted {c : CycleData} {ex : Exp}
    (hmem : c.runnumber ∈ ex.runs) (hf : filterCycle c = none) :
    stepOne c ex = extract c ex := by
  unfold stepOne
  rw [hf, if_pos hmem]

theorem stepOne_runs (c : CycleData) (ex : Exp) : (stepOne c ex).runs = ex.runs := by
  by_cases h : c.runnumber ∈ ex.runs
  · cases hf : filterCycle c with
    | some r => rw [stepOne_of_rejected ex hf]
    | none => rw [stepOne_of_accepted h hf, extract_runs]
  · rw [stepOne_of_not_mem h]

/-- `step` acts independently on each experiment: the collective
`any`-membership guard does not change the per-experiment effect. -/
theorem step_eq_map (exps : List Exp) (c : CycleData) :
    step exps c = exps.map (stepOne c) := by
  unfold step
  by_cases hany : (exps.any fun ex => decide (c.runnumber ∈ ex.runs)) = true
  · rw [if_pos hany]
    cases hf : filterCycle c with
    | some r =>
      have h : ∀ ex ∈ exps, stepOne c ex = ex := fun ex _ => stepOne_of_rejected ex hf
      rw [List.map_congr_left h, List.map_id']
    | none =>
      refine List.map_congr_left ?_
      intro ex _
      by_cases hmem : c.runnumber ∈ ex.runs
      · rw [if_pos hmem, stepOne_of_accepted hmem hf]
      · rw [if_neg hmem, stepOne_of_not_mem hmem]
  · rw [if_neg hany]
    have hnone : ∀ ex ∈ exps, c.runnumber ∉ ex.runs := by
      intro ex hex hmem
      exact hany (List.any_eq_true.mpr ⟨ex, hex, by simpa using hmem⟩)
    have h : ∀ ex ∈ exps, stepOne c ex = ex := fun ex hex =>
      stepOne_of_not_mem (hnone ex hex)
    rw [List.map_congr_left h, List.map_id']

/-- The fold of `step` over the cycle stream acts pointwise on the
experiment list. -/
theorem foldl_step_eq (cycles : List CycleData) (exps : List Exp) :
    cycles.foldl step exps = exps.map fun ex => cycles.foldl (fun e c => stepOne c e) ex := by
  induction cycles generalizing exps with
  | nil => simp
  | cons c cs ih =>
    rw [List.foldl_cons, step_eq_map, ih, List.map_map]
    rfl

/-- The equal-length invariant: every per-cycle sequence of an experiment
accumulator (the ones `ReadCycles` appends to) has length `n`. -/
def SeqLen (ex : Exp) (n : ℕ) : Prop :=
  ex.start.length = n ∧ ex.cyclenumber.length = n ∧ ex.beamcurrent.length = n ∧
  ex.li6counts.length = n ∧ ex.countduration.length = n ∧
  ex.monitorcounts.length = n ∧ ex.monitorduration.length = n ∧
  ex.li6counts2.length = n ∧ ex.countduration2.length = n ∧
  ex.monitorcounts2.length = n ∧ ex.monitorduration2.length = n ∧
  ex.li6background.length = n ∧ ex.backgroundduration.length = n ∧
  ex.li6irradiation.length = n ∧ ex.irradiationduration.length = n ∧
  ex.mintemperature.length = n ∧ ex.maxtemperature.length = n ∧
  ex.minvaporpressure.length = n ∧ ex.maxvaporpressure.length = n ∧
  ex.SCMcurrent.length = n ∧ ex.Li6rate.length = n ∧ ex.He3rate.length = n ∧
  ex.li6window.length = n

theorem seqLen_init (ex : Exp) : SeqLen (initExp ex) 0 := by
  simp [SeqLen, initExp]

/-- The appended form of every per-cycle sequence of `extract`. -/
theorem extract_fields (c : CycleData) (ex : Exp) :
    (extract c ex).start = ex.start ++ [c.start] ∧
    (extract c ex).cyclenumber = ex.cyclenumber ++ [(c.cyclenumber : ℝ)] ∧
    (extract c ex).beamcurrent = ex.beamcurrent ++ [c.B1V_KSM_PREDCUR] ∧
    (extract c ex).li6counts = ex.li6counts ++ [c.countsLi6 1] ∧
    (extract c ex).countduration = ex.countduration ++ [c.durations 1] ∧
    (extract c ex).monitorcounts = ex.monitorcounts ++ [c.countsHe3 1] ∧
    (extract c ex).monitorduration = ex.monitorduration ++ [c.durations 1] ∧
    (extract c ex).li6counts2 = ex.li6counts2 ++ [li6Counts2 c] ∧
    (extract c ex).countduration2 = ex.countduration2 ++ [(li6Window c).2 - (li6Window c).1] ∧
    (extract c ex).monitorcounts2 = ex.monitorcounts2 ++ [monitorCounts2 c] ∧
    (extract c ex).monitorduration2 = ex.monitorduration2 ++ [he3Window.2 - he3Window.1] ∧
    (extract c ex).li6background = ex.li6background ++ [c.countsLi6 10] ∧
    (extract c ex).backgroundduration = ex.backgroundduration ++ [c.durations 10] ∧
    (extract c ex).li6irradiation = ex.li6irradiation ++ [c.countsLi6 0] ∧
    (extract c ex).irradiationduration = ex.irradiationduration ++ [c.durations 0] ∧
    (extract c ex).mintemperature = ex.mintemperature ++
      [listMin [listMin c.UCN_ISO_TS11_RDTEMP, listMin c.UCN_ISO_TS12_RDTEMP,
        listMin c.UCN_ISO_TS14_RDTEMP]] ∧
    (extract c ex).maxtemperature = ex.maxtemperature ++
      [listMax [listMax c.UCN_ISO_TS11_RDTEMP, listMax c.UCN_ISO_TS12_RDTEMP,
        listMax c.UCN_ISO_TS14_RDTEMP]] ∧
    (extract c ex).minvaporpressure = ex.minvaporpressure ++
      [if 2 ≤ listMax c.UCN_ISO_PG9L_RDPRESS then listMin c.UCN_ISO_PG9H_RDPRESS
        else listMin c.UCN_ISO_PG9L_RDPRESS] ∧
    (extract c ex).maxvaporpressure = ex.maxvaporpressure ++
      [if 2 ≤ listMax c.UCN_ISO_PG9L_RDPRESS then listMax c.UCN_ISO_PG9H_RDPRESS
        else listMax c.UCN_ISO_PG9L_RDPRESS] ∧
    (extract c ex).SCMcurrent = ex.SCMcurrent ++ [c.SCMVoltages3.map fun v => v / 250e-6] ∧
    (extract c ex).Li6rate = ex.Li6rate ++ [li6rateHist c] ∧
    (extract c ex).He3rate = ex.He3rate ++ [he3rateHist c] ∧
    (extract c ex).li6window = ex.li6window ++ [li6Window c] :=
  ⟨rfl, rfl, rfl, rfl, rfl, rfl, rfl, rfl, rfl, rfl, rfl, rfl, rfl, rfl, rfl, rfl, rfl,
    rfl, rfl, rfl, rfl, rfl, rfl⟩

set_option maxHeartbeats 2000000 in
theorem seqLen_extract (c : CycleData) (ex : Exp) (n : ℕ) (h : SeqLen ex n) :
    SeqLen (extract c ex) (n + 1) := by
  obtain ⟨h1, h2, h3, h4, h5, h6, h7, h8, h9, h10, h11, h12, h13, h14, h15, h16, h17,
    h18, h19, h20, h21, h22, h23⟩ := h
  obtain ⟨e1, e2, e3, e4, e5, e6, e7, e8, e9, e10, e11, e12, e13, e14, e15, e16, e17,
    e18, e19, e20, e21, e22, e23⟩ := extract_fields c ex
  refine ⟨?_, ?_, ?_, ?_, ?_, ?_, ?_, ?_, ?_, ?_, ?_, ?_, ?_, ?_, ?_, ?_, ?_, ?_, ?_,
    ?_, ?_, ?_, ?_⟩
  · rw [e1, List.length_append, List.length_singleton, h1]
  · rw [e2, List.length_append, List.length_singleton, h2]
  · rw [e3, List.length_append, List.length_singleton, h3]
  · rw [e4, List.length_append, List.length_singleton, h4]
  · rw [e5, List.length_append, List.length_singleton, h5]
  · rw [e6, List.length_append, List.length_singleton, h6]
  · rw [e7, List.length_append, List.length_singleton, h7]
  · rw [e8, List.length_append, List.length_singleton, h8]
  · rw [e9, List.length_append, List.length_singleton, h9]
  · rw [e10, List.length_append, List.length_singleton, h10]
  · rw [e11, List.length_append, List.length_singleton, h11]
  · rw [e12, List.length_append, List.length_singleton, h12]
  · rw [e13, List.length_append, List.length_singleton, h13]
  · rw [e14, List.length_append, List.length_singleton, h14]
  · rw [e15, List.length_append, List.length_singleton, h15]
  · rw [e16, List.length_append, List.length_singleton, h16]
  · rw [e17, List.length_append, List.length_singleton, h17]
  · rw [e18, List.length_append, List.length_singleton, h18]
  · rw [e19, List.length_append, List.length_singleton, h19]
  · rw [e20, List.length_append, List.length_singleton, h20]
  · rw [e21, List.length_append, List.length_singleton, h21]
  · rw [e22, List.length_append, List.length_singleton, h22]
  · rw [e23, List.length_append, List.length_singleton, h23]

/-- Whether `ReadCycles` extracts a given cycle into an experiment with the
given run set: the run number is claimed and the filter accepts. -/
def acceptedBy (runs : List ℕ) (c : CycleData) : Bool :=
  decide (c.runnumber ∈ runs) && (filterCycle c).isNone

theorem seqLen_foldl (cycles : List CycleData) (ex : Exp) (n : ℕ) (h : SeqLen ex n) :
    SeqLen (cycles.foldl (fun e c => stepOne c e) ex)
      (n + cycles.countP (acceptedBy ex.runs)) ∧
    (cycles.foldl (fun e c => stepOne c e) ex).runs = ex.runs := by
  induction cycles generalizing ex n with
  | nil => exact ⟨by simpa using h, rfl⟩
  | cons c cs ih =>
    rw [List.foldl_cons]
    by_cases hacc : c.runnumber ∈ ex.runs ∧ filterCycle c = none
    · have hstep : stepOne c ex = extract c ex := stepOne_of_accepted hacc.1 hacc.2
      have hp : acceptedBy ex.runs c = true := by
        simp [acceptedBy, hacc.1, Option.isNone_iff_eq_none, hacc.2]
      have := ih (extract c ex) (n + 1) (seqLen_extract c ex n h)
      rw [extract_runs] at this
      rw [hstep]
      refine ⟨?_, this.2⟩
      have hcount : (c :: cs).countP (acceptedBy ex.runs)
          = cs.countP (acceptedBy ex.runs) + 1 := by
        rw [List.countP_cons, hp]
        simp
      rw [hcount]
      have h1 := this.1
      have harith : n + 1 + cs.countP (acceptedBy ex.runs)
          = n + (cs.countP (acceptedBy ex.runs) + 1) := by omega
      rwa [harith] at h1
    · have hstep : stepOne c ex = ex := by
        rcases not_and_or.mp hacc with hm | hf
        · exact stepOne_of_not_mem hm
        · obtain ⟨r, hr⟩ := Option.ne_none_iff_exists'.mp hf
          exact stepOne_of_rejected ex hr
      have hp : acceptedBy ex.runs c = false := by
        rw [Bool.eq_false_iff]
        intro ht
        apply hacc
        simp only [acceptedBy, Bool.and_eq_true, decide_eq_true_eq,
          Option.isNone_iff_eq_none] at ht
        exact ht
      have := ih ex n h
      rw [hstep]
      refine ⟨?_, this.2⟩
      have hcount : (c :: cs).countP (acceptedBy ex.runs)
          = cs.countP (acceptedBy ex.runs) := by
        rw [List.countP_cons, hp]
        simp
      rw [hcount]
      exact this.1

/-- C5: after `ReadCycles`, every experiment accumulator has all its
per-cycle sequences (start times, cycle numbers, beam currents, counts and
durations for both windows, background and irradiation counts and durations,
temperature and vapor-pressure extrema, SCM currents, per-detector rate
histograms, secondary-window bounds) of equal length: exactly one entry per
accepted cycle whose run number is in the experiment's run set. -/
theorem readCycles_equal_lengths (cycles : List CycleData) (exps : List Exp) :
    ∀ ex ∈ ReadCycles cycles exps,
      SeqLen ex (cycles.countP (acceptedBy ex.runs)) := by
  intro ex hex
  rw [ReadCycles, foldl_step_eq, List.map_map] at hex
  obtain ⟨ex0, hex0, rfl⟩ := List.mem_map.mp hex
  have h := seqLen_foldl cycles (initExp ex0) 0 (seqLen_init ex0)
  simp only [Function.comp_apply]
  rw [h.2, initExp_runs]
  have h1 := h.1
  rw [initExp_runs] at h1
  simpa using h1

/-- Python's `min` of a nonempty list is one of its elements. -/
theorem listMin_mem : ∀ (l : List ℝ), l ≠ [] → listMin l ∈ l
  | [], h => absurd rfl h
  | x :: xs, _ => by
    show xs.foldl min x ∈ x :: xs
    induction xs generalizing x with
    | nil => simp
    | cons y ys ih =>
      rw [List.foldl_cons]
      have h1 := ih (min x y) (by simp)
      rcases List.mem_cons.mp h1 with heq | hmem
      · rw [heq]
        rcases min_choice x y with hm | hm <;> rw [hm] <;> simp
      · exact List.mem_cons_of_mem _ (List.mem_cons_of_mem _ hmem)

/-- Readings all within `δ` of a common value `a` bound the population
standard deviation by `2δ`. -/
theorem npStd_le_of_bounds (l : List ℝ) (hne : l ≠ []) (a δ : ℝ) (hδ : 0 ≤ δ)
    (hb : ∀ b ∈ l, |b - a| ≤ δ) : npStd l ≤ 2 * δ := by
  have hlen0 : 0 < l.length := List.length_pos.mpr hne
  have hlenR : (0 : ℝ) < l.length := by exact_mod_cast hlen0
  have hsum_ub : l.sum ≤ l.length • (a + δ) := by
    refine List.sum_le_card_nsmul l _ fun x hx => ?_
    have := hb x hx
    rw [abs_le] at this
    linarith [this.2]
  have hsum_lb : l.length • (a - δ) ≤ l.sum := by
    refine List.card_nsmul_le_sum l _ fun x hx => ?_
    have := hb x hx
    rw [abs_le] at this
    linarith [this.1]
  rw [nsmul_eq_mul] at hsum_ub hsum_lb
  have hmean_ub : npMean l ≤ a + δ := by
    rw [npMean, div_le_iff hlenR]
    linarith
  have hmean_lb : a - δ ≤ npMean l := by
    rw [npMean, le_div_iff hlenR]
    linarith
  have hsq : ∀ x ∈ l.map fun b => (b - npMean l) ^ 2, x ≤ (2 * δ) ^ 2 := by
    intro x hx
    obtain ⟨b, hbmem, rfl⟩ := List.mem_map.mp hx
    have h1 := hb b hbmem
    rw [abs_le] at h1
    have habs : |b - npMean l| ≤ 2 * δ := by
      rw [abs_le]
      constructor <;> linarith [h1.1, h1.2]
    calc (b - npMean l) ^ 2 = |b - npMean l| ^ 2 := (sq_abs _).symm
    _ ≤ (2 * δ) ^ 2 := pow_le_pow_left (abs_nonneg _) habs 2
  have hS := List.sum_le_card_nsmul _ _ hsq
  rw [nsmul_eq_mul, List.length_map] at hS
  have hvar : (l.map fun b => (b - npMean l) ^ 2).sum / l.length ≤ (2 * δ) ^ 2 := by
    rw [div_le_iff hlenR]
    linarith
  calc npStd l ≤ Real.sqrt ((2 * δ) ^ 2) := Real.sqrt_le_sqrt hvar
  _ = 2 * δ := Real.sqrt_sq (by linarith)

/-- C9: a cycle whose minimum beam current is below 0.1 is rejected with a
reason citing the 0.1 threshold, and processing just continues with the next
cycle; a cycle with all beam readings within 5.0 plus or minus 0.001 passes
both the minimum-current and the fluctuation (std at most 0.02) predicates
and is rejected by neither of them. -/
theorem cycle_filter_beam_checks :
    (∀ (c : CycleData) (exps : List Exp) (rest : List CycleData),
      listMin c.B1V_KSM_PREDCUR < 0.1 →
        filterCycle c = some (.lowBeamCurrent 0.1 (listMin c.B1V_KSM_PREDCUR)) ∧
        step exps c = exps ∧
        (c :: rest).foldl step exps = rest.foldl step exps) ∧
    (∀ c : CycleData, c.B1V_KSM_PREDCUR ≠ [] →
      (∀ b ∈ c.B1V_KSM_PREDCUR, |b - 5| ≤ 0.001) →
      ¬ listMin c.B1V_KSM_PREDCUR < 0.1 ∧
      ¬ 0.02 < npStd c.B1V_KSM_PREDCUR ∧
      (∀ th m, filterCycle c ≠ some (.lowBeamCurrent th m)) ∧
      (∀ sd, filterCycle c ≠ some (.beamFluctuation sd))) := by
  constructor
  · intro c exps rest h
    have hf : filterCycle c = some (.lowBeamCurrent 0.1 (listMin c.B1V_KSM_PREDCUR)) := by
      unfold filterCycle
      rw [if_pos h]
    have hs : step exps c = exps := by
      rw [step_eq_map]
      have hid : ∀ ex ∈ exps, stepOne c ex = ex := fun ex _ => stepOne_of_rejected ex hf
      rw [List.map_congr_left hid, List.map_id']
    exact ⟨hf, hs, by rw [List.foldl_cons, hs]⟩
  · intro c hne hb
    have hlb : 4.999 ≤ listMin c.B1V_KSM_PREDCUR := by
      have hm := hb _ (listMin_mem _ hne)
      rw [abs_le] at hm
      linarith [hm.1]
    have h1 : ¬ listMin c.B1V_KSM_PREDCUR < 0.1 := not_lt.mpr (by linarith)
    have h2 : ¬ 0.02 < npStd c.B1V_KSM_PREDCUR := by
      refine not_lt.mpr (le_trans (npStd_le_of_bounds _ hne 5 0.001 (by norm_num) hb) ?_)
      norm_num
    refine ⟨h1, h2, ?_, ?_⟩
    · intro th m
      unfold filterCycle
      rw [if_neg h1, if_neg h2]
      split_ifs <;> simp
    · intro sd
      unfold filterCycle
      rw [if_neg h1, if_neg h2]
      split_ifs <;> simp

/-- A cycle record that passes every filter predicate except possibly the
beam-current ones, with the beam-current reading list as a parameter. -/
def beamCycle (beam : List ℝ) : CycleData :=
  { runnumber := 929, cyclenumber := 1, start := 0
    countsLi6 := fun n => if n = 1 then 100 else 5
    countsHe3 := fun _ => 400
    durations := fun _ => 1
    B1V_KSM_PREDCUR := beam
    UCN_UGD_IV1_STATON := [1]
    UCN_EXP_IG5_RDVAC := [0]
    UCN_ISO_TS11_RDTEMP := [1]
    UCN_ISO_TS12_RDTEMP := [1]
    UCN_ISO_TS14_RDTEMP := [1]
    UCN_ISO_PG9L_RDPRESS := [1]
    UCN_ISO_PG9H_RDPRESS := [1]
    SCMVoltages3 := []
    valve0state := fun _ => 1
    valve1state := fun n => if n = 0 then 0 else 1
    beamonduration := 1
    beamoffduration := 1
    Li6hits := []
    He3hits := []
    Li6channels := [] }

/-- An experiment configured for run 929 with freshly initialized sequences. -/
def sampleExp : Exp :=
  { TCN := "18-900", runs := [929], start := [], cyclenumber := [], beamcurrent := []
    li6counts := [], countduration := [], monitorcounts := [], monitorduration := []
    li6counts2 := [], countduration2 := [], monitorcounts2 := [], monitorduration2 := []
    li6background := [], he3background := [], li6irradiation := [], he3irradiation := []
    irradiationduration := [], backgroundduration := []
    mintemperature := [], maxtemperature := [], minvaporpressure := [], maxvaporpressure := []
    SCMcurrent := [], Li6rate := [], He3rate := [], li6window := []
    channels := ⟨10, 0, 10, fun _ => 0, fun _ => 0⟩
    productionrate := [], productionrateerr := [] }

/-- The flat-beam sample cycle is accepted by the filter. -/
theorem filter_beamCycle5 : filterCycle (beamCycle [5]) = none := by
  unfold filterCycle beamCycle
  simp only [listMin, listMax, npStd, npMean]
  norm_num

/-- C9 witness: a cycle with beam current 0.05 is rejected citing the 0.1
threshold; a cycle with beam current 5.0 passes both beam predicates. -/
theorem cycle_filter_beam_checks_witness :
    (listMin (beamCycle [0.05]).B1V_KSM_PREDCUR < 0.1 ∧
      filterCycle (beamCycle [0.05]) =
        some (.lowBeamCurrent 0.1 (listMin (beamCycle [0.05]).B1V_KSM_PREDCUR)) ∧
      step [] (beamCycle [0.05]) = []) ∧
    ((beamCycle [5]).B1V_KSM_PREDCUR ≠ [] ∧
      (∀ b ∈ (beamCycle [5]).B1V_KSM_PREDCUR, |b - 5| ≤ 0.001) ∧
      ¬ listMin (beamCycle [5]).B1V_KSM_PREDCUR < 0.1 ∧
      ¬ 0.02 < npStd (beamCycle [5]).B1V_KSM_PREDCUR) := by
  have hlow : listMin (beamCycle [0.05]).B1V_KSM_PREDCUR < 0.1 := by
    show listMin [0.05] < 0.1
    simp only [listMin, List.foldl_nil]
    norm_num
  have ha := cycle_filter_beam_checks.1 (beamCycle [0.05]) [] [] hlow
  have hne : (beamCycle [5]).B1V_KSM_PREDCUR ≠ [] := by
    show ([5] : List ℝ) ≠ []
    simp
  have hbnd : ∀ b ∈ (beamCycle [5]).B1V_KSM_PREDCUR, |b - 5| ≤ 0.001 := by
    intro b hbm
    have : b = 5 := by simpa [beamCycle] using hbm
    rw [this]
    norm_num
  have hbb := cycle_filter_beam_checks.2 (beamCycle [5]) hne hbnd
  exact ⟨⟨hlow, ha.1, ha.2.1⟩, hne, hbnd, hbb.1, hbb.2.1⟩

/-- C5 witness: running `ReadCycles` on one accepted cycle for one
experiment makes every per-cycle sequence have length one. -/
theorem readCycles_equal_lengths_witness :
    extract (beamCycle [5]) (initExp sampleExp) ∈ ReadCycles [beamCycle [5]] [sampleExp] ∧
    SeqLen (extract (beamCycle [5]) (initExp sampleExp))
      ([beamCycle [5]].countP
        (acceptedBy (extract (beamCycle [5]) (initExp sampleExp)).runs)) := by
  have hmemrun : (beamCycle [5]).runnumber ∈ (initExp sampleExp).runs := by
    show 929 ∈ [929]
    simp
  have hmem : extract (beamCycle [5]) (initExp sampleExp)
      ∈ ReadCycles [beamCycle [5]] [sampleExp] := by
    rw [ReadCycles]
    simp only [List.map_cons, List.map_nil, List.foldl_cons, List.foldl_nil]
    rw [step_eq_map]
    simp only [List.map_cons, List.map_nil]
    rw [stepOne_of_accepted hmemrun filter_beamCycle5]
    exact List.mem_singleton.mpr rfl
  exact ⟨hmem, readCycles_equal_lengths [beamCycle [5]] [sampleExp] _ hmem⟩

/-! ### Fitting (the ROOT fit engine is an external capability per the spec:
"fit model M to series S") -/

/-- The result of one ROOT fit: first parameter value and standard error,
chi-square and number of degrees of freedom (`f.GetParams()[0]`,
`f.GetErrors()[0]`, `f.Chi2()`, `f.Ndf()`). -/
structure FitResult where
  val : ℝ
  err : ℝ
  chi2 : ℝ
  ndf : ℝ

/-- The three model functions fitted by `Transmission`: the order-0
polynomial `pol0`, the saturation model `satfit` and the multi-component
decay model `li6fit`. -/
inductive FitModel
  | pol0
  | satfit
  | li6fit

/-- The data a fit is performed against: a graph with errors
(`TGraphErrors`) or a histogram. -/
inductive FitSeries
  | graph (xs ys yerrs : List ℝ)
  | hist (h : Hist)

/-- Modelled from the spec: the fit operation ("fit model M to series S") is
an external collaborator (ROOT's `Fit`); any function of the series and
model stands in for it. -/
def Fitter : Type := FitSeries → FitModel → FitResult

/-- The complementary error function (used by the `satfit` formula). -/
def erfc (x : ℝ) : ℝ := (2 / Real.sqrt Real.pi) * ∫ t in Set.Ioi x, Real.exp (-(t ^ 2))

/-- The `satfit` model formula
`[0]*(erfc(sqrt([1]/x)-sqrt(x/[2]))-exp(4*sqrt([1]/[2]))*erfc(sqrt([1]/x)+sqrt(x/[2])))`. -/
def satfitModel (p : ℕ → ℝ) (x : ℝ) : ℝ :=
  p 0 * (erfc (Real.sqrt (p 1 / x) - Real.sqrt (x / p 2)) -
    Real.exp (4 * Real.sqrt (p 1 / p 2)) * erfc (Real.sqrt (p 1 / x) + Real.sqrt (x / p 2)))

/-- The `li6fit` model formula (the ROOT ternary `x<60 + [0]?0:[1]` parses as
`(x < 60 + [0]) ? 0 : [1]`); parameter 8 is the fixed background term. -/
def li6fitModel (p : ℕ → ℝ) (x : ℝ) : ℝ :=
  (if x < 60 + p 0 then 0 else p 1) * (1 - Real.exp (-(x - 60 - p 0) / p 2)) *
    (Real.exp (-(x - 60 - p 0) / p 3) + p 4 * Real.exp (-(x - 60 - p 0) / p 5) +
      p 6 * Real.exp (-(x - 60 - p 0) / p 7)) + p 8

/-! ### Histogram arithmetic used by `Transmission` -/

/-- A fresh histogram sharing an axis (`TH1D` constructed from another
histogram's axis). -/
def Hist.emptyLike (h : Hist) : Hist :=
  ⟨h.nbins, h.xmin, h.xmax, fun _ => 0, fun _ => 0⟩

/-- ROOT `TH1::Add(h, c)`: bin contents plus `c` times the other histogram's
contents, squared errors plus `c^2` times the other's. -/
def Hist.addScaled (a b : Hist) (c : ℝ) : Hist :=
  { a with content := fun i => a.content i + c * b.content i
           err2 := fun i => a.err2 i + c ^ 2 * b.err2 i }

/-- The per-experiment summed rate histogram (`he3rate.Add(he3)` in a loop
over the per-cycle histograms, on the first cycle's axis). -/
def sumHists (hs : List Hist) : Hist :=
  match hs with
  | [] => ⟨0, 0, 0, fun _ => 0, fun _ => 0⟩
  | h :: _ => hs.foldl (fun acc x => acc.addScaled x 1) h.emptyLike

/-- ROOT `TH1::Rebin(n)`: merge groups of `n` adjacent bins, adding contents
and squared errors. -/
def Hist.rebin (h : Hist) (n : ℕ) : Hist :=
  { nbins := h.nbins / n, xmin := h.xmin, xmax := h.xmax
    content := fun b => if b = 0 then h.content 0
      else ((List.range n).map fun j => h.content ((b - 1) * n + 1 + j)).sum
    err2 := fun b => if b = 0 then h.err2 0
      else ((List.range n).map fun j => h.err2 ((b - 1) * n + 1 + j)).sum }

/-- ROOT `TH1::Divide`: bin-by-bin quotient; bins with a zero denominator
are set to zero content and zero error; error propagation
`e^2 = (ea^2 b^2 + eb^2 a^2) / b^4`. -/
def Hist.divide (a b : Hist) : Hist :=
  { a with
    content := fun i => if b.content i = 0 then 0 else a.content i / b.content i
    err2 := fun i => if b.content i = 0 then 0 else
      (a.err2 i * (b.content i) ^ 2 + b.err2 i * (a.content i) ^ 2) / (b.content i) ^ 4 }

/-- ROOT `TH1::Add` under the `kIsAverage` bit: bin-by-bin inverse-variance
weighted average (bins with zero variance are given unit weight in this
model; no claim inspects these bin values). -/
def Hist.avgAdd (a b : Hist) : Hist :=
  { a with
    content := fun i =>
      let wa := if a.err2 i = 0 then 1 else 1 / a.err2 i
      let wb := if b.err2 i = 0 then 1 else 1 / b.err2 i
      (wa * a.content i + wb * b.content i) / (wa + wb)
    err2 := fun i =>
      let wa := if a.err2 i = 0 then 1 else 1 / a.err2 i
      let wb := if b.err2 i = 0 then 1 else 1 / b.err2 i
      1 / (wa + wb) }

/-- The flat per-cycle normalization histogram: the Python loop
`for b in range(normhist.GetNbinsX())` sets bins `0..nbins-1` to the monitor
count `m` with error `sqrt(m)`. -/
def normHistFor (nb : ℕ) (xmin xmax : ℝ) (m : ℝ) : Hist :=
  { nbins := nb, xmin := xmin, xmax := xmax
    content := fun b => if b < nb then m else 0
    err2 := fun b => if b < nb then Real.sqrt m ^ 2 else 0 }

/-- The flat Li6 background histogram: every bin `0..nbins-1` holds
`rate * binwidth` with error `rateErr * binwidth`. -/
def li6bgHist (axisLike : Hist) : Hist :=
  { nbins := axisLike.nbins, xmin := axisLike.xmin, xmax := axisLike.xmax
    content := fun b => if b < axisLike.nbins then
      (UCN.DetectorBackground .li6).1 * axisLike.binWidth else 0
    err2 := fun b => if b < axisLike.nbins then
      ((UCN.DetectorBackground .li6).2 * axisLike.binWidth) ^ 2 else 0 }

/-- The normalized time-of-flight spectrum loop of `Transmission`: per
cycle, clone the Li6 rate histogram, subtract the flat background, rebin by
4, divide by the flat normalization histogram built from the cycle's monitor
count, and accumulate as an average. -/
def buildNorm (rates : List Hist) (ms : List ℝ) (bg : Hist) (nb4 : ℕ)
    (xmin xmax : ℝ) : Hist :=
  (rates.zip ms).foldl
    (fun acc p =>
      acc.avgAdd (((p.1.addScaled bg (-1)).rebin 4).divide (normHistFor nb4 xmin xmax p.2)))
    ⟨nb4, xmin, xmax, fun _ => 0, fun _ => 0⟩

/-! ### The Transmission analyzer -/

/-- The derived quantities `Transmission` computes for one experiment with
at least one cycle: stored dictionary entries plus the raw fit results (the
satfit/li6fit results are only rendered, never post-processed).  `trans2` is
`none` when the irradiation-window block is skipped. -/
structure TransOut where
  li6backgroundrate : ℝ
  li6backgroundrateerr : ℝ
  li6irradiationrate : List ℝ
  li6irradiationrateerr : List ℝ
  transfit : FitResult
  transmission : ℝ
  transmissionerr : ℝ
  trans2 : Option (FitResult × ℝ × ℝ)
  satfitresult : FitResult
  li6fitresult : FitResult
  Li6rate_normalized : Hist
  Li6rate_normalized2 : Hist

/-- `Transmission(ex)`: per-experiment reduction in source order.  Python
expressions that can raise are sequenced in `Except`; the plot-only
rendering calls (including the cumulated-ratio histograms of lines 284-314
of `transmission.py`, which are drawn but never stored on the experiment or
consumed downstream) are outside the modelled state. -/
def Transmission (ex : Exp) (fitter : Fitter) : Except PyErr (Option TransOut) :=
  match ex.start with
  | [] => .ok none
  | _ :: _ => do
    let bg ← UCN.BackgroundRate ex.li6background ex.backgroundduration
    let irrRate ← UCN.SubtractBackgroundAndNormalizeRate ex.li6irradiation
      ex.irradiationduration .li6 (ex.beamcurrent.map npMean) (ex.beamcurrent.map npStd)
    let w ← ex.monitorcounts.mapM fun m => pydiv 1 m
    let _ ← pydiv ((ex.monitorcounts.zip w).map fun p => p.2 * p.1).sum w.sum
    let _ ← pydiv 1 (Real.sqrt w.sum)
    let yy ← UCN.SubtractBackgroundAndNormalize ex.li6counts ex.countduration .li6
      ex.monitorcounts (ex.monitorcounts.map Real.sqrt)
    let tf := fitter (.graph ex.cyclenumber yy.1 yy.2) .pol0
    let sc ← pydiv tf.chi2 tf.ndf
    (if 0 < listMin ex.monitorcounts2 then do
        let yy2 ← UCN.SubtractBackgroundAndNormalize ex.li6counts2 ex.countduration2 .li6
          ex.monitorcounts2 (ex.monitorcounts2.map Real.sqrt)
        let tf2 := fitter (.graph ex.cyclenumber yy2.1 yy2.2) .pol0
        let sc2 ← pydiv tf2.chi2 tf2.ndf
        pure (some (tf2, tf2.val, tf2.err * max sc2 1))
      else pure (none : Option (FitResult × ℝ × ℝ))) >>= fun irrOut =>
    let he3rate := sumHists ex.He3rate
    let satf := fitter (.hist he3rate) .satfit
    let li6rate := sumHists ex.Li6rate
    let li6f := fitter (.hist li6rate) .li6fit
    let li6axis := ex.Li6rate.headD ⟨0, 0, 0, fun _ => 0, fun _ => 0⟩
    let bgh := li6bgHist li6axis
    let li6norm := buildNorm ex.Li6rate ex.monitorcounts bgh (li6axis.nbins / 4)
      li6axis.xmin li6axis.xmax
    let li6norm2 := buildNorm ex.Li6rate ex.monitorcounts2 bgh (li6axis.nbins / 4)
      li6axis.xmin li6axis.xmax
    .ok (some
      { li6backgroundrate := bg.1, li6backgroundrateerr := bg.2
        li6irradiationrate := irrRate.1, li6irradiationrateerr := irrRate.2
        transfit := tf, transmission := tf.val, transmissionerr := tf.err * max sc 1
        trans2 := irrOut
        satfitresult := satf, li6fitresult := li6f
        Li6rate_normalized := li6norm, Li6rate_normalized2 := li6norm2 })

/-! ### The cross-experiment normalizer -/

/-- The post-`Transmission` view of one experiment dictionary as read by
`Normalize`: entries that `Transmission` may or may not have stored are
optional (reading a missing key raises `KeyError`). -/
structure Exp2 where
  TCN : String
  transmission : Option ℝ
  transmissionerr : Option ℝ
  transmission2 : Option ℝ
  transmission2err : Option ℝ
  Li6rate_normalized : Option Hist
  Li6rate_normalized2 : Option Hist

/-- Running `Transmission` on one experiment and collecting the dictionary
entries `Normalize` reads. -/
def annotate (ex : Exp) (fitter : Fitter) : Except PyErr Exp2 := do
  let r ← Transmission ex fitter
  match r with
  | none => pure {
      TCN := ex.TCN
      transmission := none
      transmissionerr := none
      transmission2 := none
      transmission2err := none
      Li6rate_normalized := none
      Li6rate_normalized2 := none }
  | some out => pure {
      TCN := ex.TCN
      transmission := some out.transmission
      transmissionerr := some out.transmissionerr
      transmission2 := out.trans2.map fun q => q.2.1
      transmission2err := out.trans2.map fun q => q.2.2
      Li6rate_normalized := some out.Li6rate_normalized
      Li6rate_normalized2 := some out.Li6rate_normalized2 }

/-- Python `str.startswith`. -/
def tcnStartsWith (pre s : String) : Bool := pre.data.isPrefixOf s.data

/-- Python dictionary subscript: raises `KeyError` on a missing key. -/
def getKey {α : Type} : Option α → Except PyErr α
  | none => .error .keyError
  | some v => .ok v

/-- `Normalize(experiments, transtcn, reftcn)`: look up target and reference
by identifier prefix; on a miss return the bare pair `(0., 0.)` (as the
source does); otherwise compute the two transmission ratios with quadrature
errors (the irradiation error is scaled by `transmission`, exactly as in
the source) and divide the normalized spectra, returning the quadruple. -/
def Normalize (experiments : List Exp2) (transtcn reftcn : String) :
    Except PyErr (List ℝ) :=
  match experiments.find? (fun e => tcnStartsWith transtcn e.TCN),
        experiments.find? (fun e => tcnStartsWith reftcn e.TCN) with
  | some transEx, some refEx => do
      let tv ← getKey transEx.transmission
      let rv ← getKey refEx.transmission
      let transmission ← pydiv tv rv
      let te ← getKey transEx.transmissionerr
      let a ← pydiv te tv
      let re ← getKey refEx.transmissionerr
      let b ← pydiv re rv
      let transmissionerr := Real.sqrt (a ^ 2 + b ^ 2) * transmission
      let tv2 ← getKey transEx.transmission2
      let rv2 ← getKey refEx.transmission2
      let transmission2 ← pydiv tv2 rv2
      let te2 ← getKey transEx.transmission2err
      let a2 ← pydiv te2 tv2
      let re2 ← getKey refEx.transmission2err
      let b2 ← pydiv re2 rv2
      let transmission2err := Real.sqrt (a2 ^ 2 + b2 ^ 2) * transmission
      let tofspec ← getKey transEx.Li6rate_normalized
      let refspec ← getKey refEx.Li6rate_normalized
      let _ := tofspec.divide refspec
      let tofspec2 ← getKey transEx.Li6rate_normalized2
      let refspec2 ← getKey refEx.Li6rate_normalized2
      let _ := tofspec2.divide refspec2
      pure [transmission, transmissionerr, transmission2, transmission2err]
  | _, _ => .ok [0, 0]

/-- Pushing a map through an `Except` bind. -/
theorem except_map_bind {α β γ : Type} (g : β → γ) (x : Except PyErr α)
    (f : α → Except PyErr β) :
    Except.map g (x >>= f) = x >>= fun a => Except.map g (f a) := by
  cases x <;> rfl

/-- Congruence for `Except` bind. -/
theorem except_bind_congr {α β : Type} {x : Except PyErr α}
    {f g : α → Except PyErr β} (h : ∀ a, f a = g a) : x >>= f = x >>= g := by
  cases x with
  | error e => rfl
  | ok a => exact h a

/-- A 10-bin histogram on `[0, 10]` with empty content, standing in for the
per-cycle rate histograms of the concrete test experiment. -/
def dummyHist : Hist := ⟨10, 0, 10, fun _ => 0, fun _ => 0⟩

/-- A concrete fitter whose every fit has value 1, standard error 1,
chi-square 2 and one degree of freedom (reduced chi-square 2 > 1). -/
def fitB : Fitter := fun _ _ => ⟨1, 1, 2, 1⟩

/-- A concrete two-cycle experiment whose irradiation-window monitor counts
are both zero (the degenerate case of the `min(monitorcounts2) > 0` guard). -/
def exC : Exp :=
  { TCN := "18-900 (sample)", runs := [929], start := [0, 1], cyclenumber := [1, 2]
    beamcurrent := [[1], [1]]
    li6counts := [0, 0], countduration := [1, 1]
    monitorcounts := [1, 1], monitorduration := [1, 1]
    li6counts2 := [0, 0], countduration2 := [10, 10]
    monitorcounts2 := [0, 0], monitorduration2 := [10, 10]
    li6background := [0, 0], he3background := []
    li6irradiation := [0, 0], he3irradiation := []
    irradiationduration := [1, 1], backgroundduration := [1, 1]
    mintemperature := [1, 1], maxtemperature := [1, 1]
    minvaporpressure := [1, 1], maxvaporpressure := [1, 1]
    SCMcurrent := [[], []]
    Li6rate := [dummyHist, dummyHist], He3rate := [dummyHist, dummyHist]
    li6window := [(0, 10), (0, 10)]
    channels := ⟨10, 0, 10, fun _ => 0, fun _ => 0⟩
    productionrate := [], productionrateerr := [] }

/-- The value `Transmission` computes on `exC` with the constant fitter. -/
def outCval : TransOut :=
  { li6backgroundrate := 0, li6backgroundrateerr := 0
    li6irradiationrate := [0, 0], li6irradiationrateerr := [0, 0]
    transfit := ⟨1, 1, 2, 1⟩, transmission := 1, transmissionerr := 2
    trans2 := none
    satfitresult := ⟨1, 1, 2, 1⟩, li6fitresult := ⟨1, 1, 2, 1⟩
    Li6rate_normalized := buildNorm [dummyHist, dummyHist] [1, 1] (li6bgHist dummyHist)
      (dummyHist.nbins / 4) dummyHist.xmin dummyHist.xmax
    Li6rate_normalized2 := buildNorm [dummyHist, dummyHist] [0, 0] (li6bgHist dummyHist)
      (dummyHist.nbins / 4) dummyHist.xmin dummyHist.xmax }

/-- Concrete evaluation of the analyzer on `exC`. -/
theorem transmission_exC_eq : Transmission exC fitB = .ok (some outCval) := by
  unfold Transmission exC outCval fitB dummyHist
  simp only [List.zip_cons_cons, List.zip_nil_right, List.map_cons, List.map_nil, UCN.zip4]
  rw [List.mapM_cons, List.mapM_cons, List.mapM_nil]
  simp [UCN.BackgroundRate, UCN.SubtractBackgroundAndNormalizeRate,
    UCN.SubtractBackgroundAndNormalize, UCN.bgsubElem, UCN.bgsuberrElem, UCN.normerrElem,
    UCN.DetectorBackground, pydiv, npMean, npStd, listMin, List.mapM_cons, List.mapM_nil,
    List.mapM.loop, Real.sqrt_eq_zero', UCN.zip4]
  norm_num [max_def]

/-- An experiment dictionary carrying the reference identifier `18-480`. -/
def e2r : Exp2 :=
  ⟨"18-480 (UGD22+2)", some 1, some 0, some 1, some 4, some dummyHist, some dummyHist⟩

/-- An experiment dictionary carrying the target identifier `18-115`. -/
def e2t : Exp2 :=
  ⟨"18-115 (UGD22+2+Ti)", some 2, some 0, some 1, some 3, some dummyHist, some dummyHist⟩

/-- C1: on a failed lookup, `Normalize` silently returns the bare pair
`(0., 0.)`, not the four-scalar tuple `(0., 0., 0., 0.)` claimed by the
spec (so the four-way unpacking at the call site would raise a
`ValueError` on a miss). -/
theorem normalize_lookup_miss_returns_pair :
    Normalize [e2r] "18-999" "18-480" = .ok [0, 0] ∧
    ∀ a b c d : ℝ, Normalize [e2r] "18-999" "18-480" ≠ .ok [a, b, c, d] := by
  have h : Normalize [e2r] "18-999" "18-480" = .ok [0, 0] := rfl
  refine ⟨h, ?_⟩
  intro a b c d hcon
  rw [h] at hcon
  simp at hcon

/-- C2: the quadrature relative error of the irradiation-window ratio is
multiplied by `transmission` (the counting-window ratio, value 2 here), not
by `transmission2` (value 1): the reported error is 10 where the spec's
formula gives 5. -/
theorem normalize_trans2err_scaled_by_counting_ratio :
    Normalize [e2t, e2r] "18-115" "18-480" = .ok [2, 0, 1, 10] ∧
    Real.sqrt ((3 / 1 : ℝ) ^ 2 + (4 / 1) ^ 2) * 1 = 5 ∧ (10 : ℝ) ≠ 5 := by
  have h5 : Real.sqrt ((3 / 1 : ℝ) ^ 2 + (4 / 1) ^ 2) = 5 := by
    rw [show ((3 / 1 : ℝ) ^ 2 + (4 / 1) ^ 2) = 5 ^ 2 by norm_num,
      Real.sqrt_sq (by norm_num : (0 : ℝ) ≤ 5)]
  have hf1 : List.find? (fun e => tcnStartsWith "18-115" e.TCN) [e2t, e2r] = some e2t := rfl
  have hf2 : List.find? (fun e => tcnStartsWith "18-480" e.TCN) [e2t, e2r] = some e2r := rfl
  refine ⟨?_, by rw [h5, mul_one], by norm_num⟩
  unfold Normalize
  rw [hf1, hf2]
  simp only [e2t, e2r, getKey, pydiv, exceptOk_bind]
  norm_num [h5]
  rw [show (25 : ℝ) = 5 ^ 2 by norm_num, Real.sqrt_sq (by norm_num : (0 : ℝ) ≤ 5)]
  norm_num

/-- The map `Transmission` stores for one experiment, with the
irradiation-normalized spectrum (`Li6rate_normalized2`) projected away. -/
def exceptNorm2View (o : TransOut) :
    ℝ × ℝ × List ℝ × List ℝ × FitResult × ℝ × ℝ × Option (FitResult × ℝ × ℝ) ×
      FitResult × FitResult × Hist :=
  (o.li6backgroundrate, o.li6backgroundrateerr, o.li6irradiationrate,
    o.li6irradiationrateerr, o.transfit, o.transmission, o.transmissionerr, o.trans2,
    o.satfitresult, o.li6fitresult, o.Li6rate_normalized)

/-- C3 (amended): when some accepted cycle has zero irradiation-window
monitor counts, the irradiation-window constant fit is skipped (no
`transmission2` entries are produced) without raising, and none of the other
outputs except the irradiation-normalized spectrum depend on the
irradiation-window data (`monitorcounts2`, `li6counts2`, `countduration2`)
at all — in particular the counting-window outputs are produced unchanged
and no error arises from the degenerate data. -/
theorem transmission_degenerate_monitor2 (ex : Exp) (f : Fitter)
    (h2 : listMin ex.monitorcounts2 ≤ 0) (mc2' c2' d2' : List ℝ)
    (h2' : listMin mc2' ≤ 0) :
    Except.map (Option.map TransOut.trans2) (Transmission ex f) =
      Except.map (Option.map fun _ => (none : Option (FitResult × ℝ × ℝ)))
        (Transmission ex f) ∧
    Except.map (Option.map exceptNorm2View)
        (Transmission
          { ex with monitorcounts2 := mc2', li6counts2 := c2', countduration2 := d2' } f) =
      Except.map (Option.map exceptNorm2View) (Transmission ex f) := by
  have hng : ¬ 0 < listMin ex.monitorcounts2 := not_lt.mpr h2
  have hng' : ¬ 0 < listMin mc2' := not_lt.mpr h2'
  constructor
  · unfold Transmission
    cases ex.start with
    | nil =>
      rfl
    | cons a rest =>
      rw [except_map_bind, except_map_bind]
      refine except_bind_congr fun bg => ?_
      rw [except_map_bind, except_map_bind]
      refine except_bind_congr fun irrRate => ?_
      rw [except_map_bind, except_map_bind]
      refine except_bind_congr fun w => ?_
      rw [except_map_bind, except_map_bind]
      refine except_bind_congr fun avg => ?_
      rw [except_map_bind, except_map_bind]
      refine except_bind_congr fun pr => ?_
      rw [except_map_bind, except_map_bind]
      refine except_bind_congr fun yy => ?_
      rw [except_map_bind, except_map_bind]
      refine except_bind_congr fun sc => ?_
      rw [if_neg hng]
      rfl
  · unfold Transmission
    have hstart : ({ ex with monitorcounts2 := mc2', li6counts2 := c2', countduration2 := d2' } : Exp).start = ex.start := rfl
    rw [hstart]
    cases ex.start with
    | nil =>
      rfl
    | cons a rest =>
      rw [except_map_bind, except_map_bind]
      refine except_bind_congr fun bg => ?_
      rw [except_map_bind, except_map_bind]
      refine except_bind_congr fun irrRate => ?_
      rw [except_map_bind, except_map_bind]
      refine except_bind_congr fun w => ?_
      rw [except_map_bind, except_map_bind]
      refine except_bind_congr fun avg => ?_
      rw [except_map_bind, except_map_bind]
      refine except_bind_congr fun pr => ?_
      rw [except_map_bind, except_map_bind]
      refine except_bind_congr fun yy => ?_
      rw [except_map_bind, except_map_bind]
      refine except_bind_congr fun sc => ?_
      rw [if_neg hng, if_neg hng']
      rfl

/-- C3 witness: the amended statement applied to the concrete degenerate
experiment `exC` (monitor counts 0 in the irradiation window). -/
theorem transmission_degenerate_monitor2_witness :
    (listMin exC.monitorcounts2 ≤ 0 ∧ listMin [(0 : ℝ)] ≤ 0) ∧
    (Except.map (Option.map TransOut.trans2) (Transmission exC fitB) =
      Except.map (Option.map fun _ => (none : Option (FitResult × ℝ × ℝ)))
        (Transmission exC fitB) ∧
    Except.map (Option.map exceptNorm2View)
        (Transmission
          { exC with monitorcounts2 := [0], li6counts2 := [0], countduration2 := [1] } fitB) =
      Except.map (Option.map exceptNorm2View) (Transmission exC fitB)) := by
  have ha : listMin exC.monitorcounts2 ≤ 0 := by
    show listMin [0, 0] ≤ 0
    simp [listMin]
  have hb : listMin [(0 : ℝ)] ≤ 0 := by
    simp [listMin]
  exact ⟨⟨ha, hb⟩, transmission_degenerate_monitor2 exC fitB ha [0] [0] [1] hb⟩

/-- C3 counterexample: on the degenerate experiment the irradiation-
normalized spectrum is nonetheless built (not skipped), and downstream
`Normalize` raises `KeyError` on the missing `transmission2` key instead of
not raising. -/
theorem degenerate_monitor2_downstream_keyError :
    exC.monitorcounts2 = [0, 0] ∧
    (annotate exC fitB).map (fun e => e.Li6rate_normalized2.isSome) = .ok true ∧
    ((annotate exC fitB) >>= fun e2 => Normalize [e2] "18-900" "18-900") =
      .error .keyError := by
  have han : annotate exC fitB = .ok
      { TCN := "18-900 (sample)"
        transmission := some 1
        transmissionerr := some 2
        transmission2 := none
        transmission2err := none
        Li6rate_normalized := some outCval.Li6rate_normalized
        Li6rate_normalized2 := some outCval.Li6rate_normalized2 } := by
    unfold annotate
    rw [transmission_exC_eq]
    rfl
  refine ⟨rfl, ?_, ?_⟩
  · rw [han]
    rfl
  · rw [han]
    rw [exceptOk_bind]
    unfold Normalize
    have hf : List.find? (fun e => tcnStartsWith "18-900" e.TCN)
        [{ TCN := "18-900 (sample)"
           transmission := some 1
           transmissionerr := some 2
           transmission2 := none
           transmission2err := none
           Li6rate_normalized := some outCval.Li6rate_normalized
           Li6rate_normalized2 := some outCval.Li6rate_normalized2 : Exp2 }] =
        some { TCN := "18-900 (sample)"
               transmission := some 1
               transmissionerr := some 2
               transmission2 := none
               transmission2err := none
               Li6rate_normalized := some outCval.Li6rate_normalized
               Li6rate_normalized2 := some outCval.Li6rate_normalized2 : Exp2 } := by
      rw [List.find?_cons_of_pos]
      rfl
    rw [hf]
    simp only [getKey, pydiv, exceptOk_bind]
    norm_num

/-- The chi-square post-processing rule the spec requires for every fit:
the reported error is the standard error scaled by the reduced chi-square
when the latter exceeds 1, and unscaled otherwise. -/
def chiScaled (fr : FitResult) (e : ℝ) : Prop :=
  (1 < fr.chi2 / fr.ndf → e = fr.err * (fr.chi2 / fr.ndf)) ∧
  (fr.chi2 / fr.ndf ≤ 1 → e = fr.err)

/-- The `err * max(chi2/ndf, 1)` idiom satisfies the chi-square rule. -/
theorem chiScaled_max (fr : FitResult) : chiScaled fr (fr.err * max (fr.chi2 / fr.ndf) 1) := by
  constructor
  · intro hgt
    rw [max_eq_left (le_of_lt hgt)]
  · intro hle
    rw [max_eq_right hle, mul_one]

/-- C4 (amended): the two constant (pol0) fits of the pipeline apply the
chi-square post-processing rule to their reported errors, while the
saturation-model and decay-model fit results are stored exactly as the
fitter returns them (no post-processing). -/
theorem constant_fit_chi2_scaling (ex : Exp) (f : Fitter) (out : TransOut)
    (h : Transmission ex f = .ok (some out)) :
    chiScaled out.transfit out.transmissionerr ∧
    (∀ f2 t2 e2, out.trans2 = some (f2, t2, e2) → chiScaled f2 e2) ∧
    out.satfitresult = f (.hist (sumHists ex.He3rate)) .satfit ∧
    out.li6fitresult = f (.hist (sumHists ex.Li6rate)) .li6fit := by
  unfold Transmission at h
  cases hs : ex.start with
  | nil =>
    rw [hs] at h
    simp at h
  | cons a rest =>
    rw [hs] at h
    obtain ⟨bg, hbg, h⟩ := except_bind_ok h
    obtain ⟨irrRate, hirr, h⟩ := except_bind_ok h
    obtain ⟨w, hw, h⟩ := except_bind_ok h
    obtain ⟨avg, havg, h⟩ := except_bind_ok h
    obtain ⟨pr, hpr, h⟩ := except_bind_ok h
    obtain ⟨yy, hyy, h⟩ := except_bind_ok h
    obtain ⟨sc, hsc, h⟩ := except_bind_ok h
    obtain ⟨irrOut, hio, h⟩ := except_bind_ok h
    simp only [Except.ok.injEq, Option.some.injEq] at h
    obtain ⟨hnd, hscv⟩ := pydiv_ok hsc
    subst h
    refine ⟨?_, ?_, rfl, rfl⟩
    · show chiScaled (f (.graph ex.cyclenumber yy.1 yy.2) .pol0)
        ((f (.graph ex.cyclenumber yy.1 yy.2) .pol0).err * max sc 1)
      rw [hscv]
      exact chiScaled_max _
    · intro f2 t2 e2 heq
      by_cases hg : 0 < listMin ex.monitorcounts2
      · rw [if_pos hg] at hio
        obtain ⟨yy2, hyy2, hio⟩ := except_bind_ok hio
        obtain ⟨sc2, hsc2, hio⟩ := except_bind_ok hio
        have hi2 : irrOut = some (f (.graph ex.cyclenumber yy2.1 yy2.2) .pol0,
            (f (.graph ex.cyclenumber yy2.1 yy2.2) .pol0).val,
            (f (.graph ex.cyclenumber yy2.1 yy2.2) .pol0).err * max sc2 1) := by
          simpa [pure, Except.pure] using hio.symm
        rw [hi2] at heq
        simp only [Option.some.injEq, Prod.mk.injEq] at heq
        obtain ⟨hf2, -, he2⟩ := heq
        obtain ⟨hnd2, hscv2⟩ := pydiv_ok hsc2
        rw [← hf2, ← he2, hscv2]
        exact chiScaled_max _
      · rw [if_neg hg] at hio
        have : irrOut = none := by simpa [pure, Except.pure] using hio.symm
        rw [this] at heq
        cases heq

/-- C4 witness: the amended statement at the concrete experiment `exC`
with the constant fitter of reduced chi-square 2. -/
theorem constant_fit_chi2_scaling_witness :
    Transmission exC fitB = .ok (some outCval) ∧
    (chiScaled outCval.transfit outCval.transmissionerr ∧
      (∀ f2 t2 e2, outCval.trans2 = some (f2, t2, e2) → chiScaled f2 e2) ∧
      outCval.satfitresult = fitB (.hist (sumHists exC.He3rate)) .satfit ∧
      outCval.li6fitresult = fitB (.hist (sumHists exC.Li6rate)) .li6fit) :=
  ⟨transmission_exC_eq, constant_fit_chi2_scaling exC fitB outCval transmission_exC_eq⟩

/-! ### Helium vapor pressure and temperature (`UCN.py` lines 10-30) -/

/-- The Clement-Logan-Gaffney log-vapor-pressure expression `lnP` of
`HeVaporPressure` (`UCN.py` line 22) with the constants `I, A, B, C, D, a, b`
inlined, as a total function of `T`. -/
def lnPfun (T : ℝ) : ℝ :=
  4.6202 - 6.399 / T + 2.541 * Real.log T + 0.00612 / 2 * T ^ 2 -
    0.5197 * (7 * 14.14 / (14.14 ^ 2 + 1) - 1 / T) * Real.arctan (7 * T - 14.14) -
    7 * 0.5197 / 2 / (14.14 ^ 2 + 1) * Real.log (T ^ 2 / (1 + (7 * T - 14.14) ^ 2))

/-- `HeVaporPressure(T)`: raises outside the validity range `[0.66, 5.2]`
(`UCN.py` lines 13-14), otherwise returns `exp(lnP)`. -/
def HeVaporPressure (T : ℝ) : Except PyErr ℝ :=
  if 0.66 ≤ T ∧ T ≤ 5.2 then .ok (Real.exp (lnPfun T)) else .error .valueError

/-- Modelled from the spec: the bracketed root-finder
(`scipy.optimize.brentq`, an external collaborator not part of this
repository) returns a root of `f` inside the bracket `[a, b]`. -/
def brentqRoot (f : ℝ → ℝ) (a b r : ℝ) : Prop := a ≤ r ∧ r ≤ b ∧ f r = 0

/-- `HeTemperature(P)` (`UCN.py` lines 27-30) as an input/output relation:
`P = 0` returns `0` exactly without invoking the root-finder; otherwise the
result is a root of `HeVaporPressure(T) - P` bracketed in `[0.66, 5.2]`
(where the vapor-pressure formula does not raise). -/
def HeTemperature (P T : ℝ) : Prop :=
  if P = 0 then T = 0
  else brentqRoot (fun T' => Real.exp (lnPfun T') - P) 0.66 5.2 T

/-- The derivative of `lnPfun` at a positive argument. -/
def lnPderiv (x : ℝ) : ℝ :=
  6.399 / x ^ 2 + 2.541 / x + 0.00612 * x -
    0.5197 * (1 / x ^ 2 * Real.arctan (7 * x - 14.14) +
      (7 * 14.14 / (14.14 ^ 2 + 1) - 1 / x) * (7 / (1 + (7 * x - 14.14) ^ 2))) -
    7 * 0.5197 / 2 / (14.14 ^ 2 + 1) *
      (2 / x - 14 * (7 * x - 14.14) / (1 + (7 * x - 14.14) ^ 2))

/-- `lnPfun` is differentiable at every positive point, with derivative
`lnPderiv`. -/
theorem lnPfun_hasDerivAt (x : ℝ) (hx : 0 < x) : HasDerivAt lnPfun (lnPderiv x) x := by
  have hx0 : x ≠ 0 := ne_of_gt hx
  have hx20 : x ^ 2 ≠ 0 := pow_ne_zero 2 hx0
  have hQ0 : (1 : ℝ) + (7 * x - 14.14) ^ 2 ≠ 0 := by positivity
  have hq0 : x ^ 2 / (1 + (7 * x - 14.14) ^ 2) ≠ 0 := div_ne_zero hx20 hQ0
  have hinner : HasDerivAt (fun y : ℝ => 7 * y - 14.14) 7 x := by
    simpa using ((hasDerivAt_id x).const_mul 7).sub_const (14.14 : ℝ)
  have hatan : HasDerivAt (fun y : ℝ => Real.arctan (7 * y - 14.14))
      (1 / (1 + (7 * x - 14.14) ^ 2) * 7) x := by
    simpa [Function.comp] using (Real.hasDerivAt_arctan (7 * x - 14.14)).comp x hinner
  have h1 : HasDerivAt (fun y : ℝ => 6.399 / y) ((0 * x - 6.399 * 1) / x ^ 2) x :=
    (hasDerivAt_const x 6.399).div (hasDerivAt_id x) hx0
  have h2 : HasDerivAt (fun y : ℝ => 2.541 * Real.log y) (2.541 * x⁻¹) x :=
    (Real.hasDerivAt_log hx0).const_mul 2.541
  have h3 : HasDerivAt (fun y : ℝ => 0.00612 / 2 * y ^ 2)
      (0.00612 / 2 * ((2 : ℕ) * x ^ (2 - 1))) x :=
    (hasDerivAt_pow 2 x).const_mul (0.00612 / 2)
  have hu : HasDerivAt (fun y : ℝ => 7 * 14.14 / (14.14 ^ 2 + 1) - 1 / y)
      (0 - (0 * x - 1 * 1) / x ^ 2) x :=
    (hasDerivAt_const x (7 * 14.14 / (14.14 ^ 2 + 1))).sub
      ((hasDerivAt_const x 1).div (hasDerivAt_id x) hx0)
  have h4 : HasDerivAt
      (fun y : ℝ => 0.5197 * (7 * 14.14 / (14.14 ^ 2 + 1) - 1 / y) *
        Real.arctan (7 * y - 14.14))
      (0.5197 * (0 - (0 * x - 1 * 1) / x ^ 2) * Real.arctan (7 * x - 14.14) +
        0.5197 * (7 * 14.14 / (14.14 ^ 2 + 1) - 1 / x) *
          (1 / (1 + (7 * x - 14.14) ^ 2) * 7)) x :=
    (hu.const_mul 0.5197).mul hatan
  have hQd : HasDerivAt (fun y : ℝ => 1 + (7 * y - 14.14) ^ 2)
      (0 + (2 : ℕ) * (7 * x - 14.14) ^ (2 - 1) * 7) x :=
    (hasDerivAt_const x 1).add (hinner.pow 2)
  have hq : HasDerivAt (fun y : ℝ => y ^ 2 / (1 + (7 * y - 14.14) ^ 2))
      (((2 : ℕ) * x ^ (2 - 1) * (1 + (7 * x - 14.14) ^ 2) -
          x ^ 2 * (0 + (2 : ℕ) * (7 * x - 14.14) ^ (2 - 1) * 7)) /
        (1 + (7 * x - 14.14) ^ 2) ^ 2) x :=
    (hasDerivAt_pow 2 x).div hQd hQ0
  have h5 : HasDerivAt
      (fun y : ℝ => 7 * 0.5197 / 2 / (14.14 ^ 2 + 1) *
        Real.log (y ^ 2 / (1 + (7 * y - 14.14) ^ 2)))
      (7 * 0.5197 / 2 / (14.14 ^ 2 + 1) *
        ((((2 : ℕ) * x ^ (2 - 1) * (1 + (7 * x - 14.14) ^ 2) -
            x ^ 2 * (0 + (2 : ℕ) * (7 * x - 14.14) ^ (2 - 1) * 7)) /
          (1 + (7 * x - 14.14) ^ 2) ^ 2) /
          (x ^ 2 / (1 + (7 * x - 14.14) ^ 2)))) x :=
    (hq.log hq0).const_mul (7 * 0.5197 / 2 / (14.14 ^ 2 + 1))
  have H := (((((hasDerivAt_const x (4.6202 : ℝ)).sub h1).add h2).add h3).sub h4).sub h5
  have hEq : lnPderiv x =
      0 - (0 * x - 6.399 * 1) / x ^ 2 + 2.541 * x⁻¹ +
        0.00612 / 2 * ((2 : ℕ) * x ^ (2 - 1)) -
        (0.5197 * (0 - (0 * x - 1 * 1) / x ^ 2) * Real.arctan (7 * x - 14.14) +
          0.5197 * (7 * 14.14 / (14.14 ^ 2 + 1) - 1 / x) *
            (1 / (1 + (7 * x - 14.14) ^ 2) * 7)) -
        7 * 0.5197 / 2 / (14.14 ^ 2 + 1) *
          ((((2 : ℕ) * x ^ (2 - 1) * (1 + (7 * x - 14.14) ^ 2) -
              x ^ 2 * (0 + (2 : ℕ) * (7 * x - 14.14) ^ (2 - 1) * 7)) /
            (1 + (7 * x - 14.14) ^ 2) ^ 2) /
            (x ^ 2 / (1 + (7 * x - 14.14) ^ 2))) := by
    unfold lnPderiv
    field_simp
    ring
  rw [hEq]
  exact H

set_option maxHeartbeats 2000000 in
/-- The derivative of the log-vapor-pressure formula is positive everywhere
on the validity range, by a three-region estimate: below `2.02` the arctan
correction terms are nonnegative; on `(2.02, 2.6]` and `(2.6, 5.2]` they are
small compared to `A/T^2 + B/T`. -/
theorem lnPderiv_pos (x : ℝ) (h1 : 0.66 ≤ x) (h2 : x ≤ 5.2) : 0 < lnPderiv x := by
  have hx : 0 < x := by linarith
  have hx2 : (0 : ℝ) < x ^ 2 := by positivity
  have hQ : (0 : ℝ) < 1 + (7 * x - 14.14) ^ 2 := by positivity
  have hpi := Real.pi_lt_315
  have hu_ub : Real.arctan (7 * x - 14.14) < 1.58 := by
    have := Real.arctan_lt_pi_div_two (7 * x - 14.14)
    linarith
  have ht3_ub : 14 * (7 * x - 14.14) / (1 + (7 * x - 14.14) ^ 2) ≤ 7 := by
    rw [div_le_iff hQ]
    nlinarith [sq_nonneg (7 * x - 14.14 - 1)]
  have ht3_lb : -7 ≤ 14 * (7 * x - 14.14) / (1 + (7 * x - 14.14) ^ 2) := by
    rw [le_div_iff hQ]
    nlinarith [sq_nonneg (7 * x - 14.14 + 1)]
  have h2x : 2 / x ≤ 2 / 0.66 := by
    rw [div_le_div_iff hx (by norm_num : (0 : ℝ) < 0.66)]
    linarith
  unfold lnPderiv
  rcases le_or_lt x 2.02 with hr1 | hr1
  · have hA : 6.399 / 2.02 ^ 2 ≤ 6.399 / x ^ 2 := by
      rw [div_le_div_iff (by norm_num) hx2]
      nlinarith
    have hB : 2.541 / 2.02 ≤ 2.541 / x := by
      rw [div_le_div_iff (by norm_num) hx]
      linarith
    have hu_np : Real.arctan (7 * x - 14.14) ≤ 0 := by
      have hm := Real.arctan_strictMono.monotone
        (show (7 * x - 14.14 : ℝ) ≤ 0 by linarith)
      simpa [Real.arctan_zero] using hm
    have ht1 : 1 / x ^ 2 * Real.arctan (7 * x - 14.14) ≤ 0 :=
      mul_nonpos_of_nonneg_of_nonpos (by positivity) hu_np
    have hKx : 7 * 14.14 / (14.14 ^ 2 + 1) - 1 / x ≤ 0 := by
      have hxi : 1 / (2.02 : ℝ) ≤ 1 / x := by
        rw [div_le_div_iff (by norm_num) hx]
        linarith
      have hK : 7 * 14.14 / ((14.14 : ℝ) ^ 2 + 1) < 1 / 2.02 := by norm_num
      linarith
    have ht2 : (7 * 14.14 / (14.14 ^ 2 + 1) - 1 / x) *
        (7 / (1 + (7 * x - 14.14) ^ 2)) ≤ 0 :=
      mul_nonpos_of_nonpos_of_nonneg hKx (by positivity)
    linarith [ht1, ht2, hA, hB, h2x, ht3_lb, hx]
  · rcases le_or_lt x 2.6 with hr2 | hr2
    · have hA : 6.399 / 2.6 ^ 2 ≤ 6.399 / x ^ 2 := by
        rw [div_le_div_iff (by norm_num) hx2]
        nlinarith
      have hB : 2.541 / 2.6 ≤ 2.541 / x := by
        rw [div_le_div_iff (by norm_num) hx]
        linarith
      have hxi2 : 1 / x ^ 2 ≤ 1 / 2.02 ^ 2 := by
        rw [div_le_div_iff hx2 (by norm_num)]
        nlinarith
      have p1 : 1 / x ^ 2 * Real.arctan (7 * x - 14.14) < 1 / x ^ 2 * 1.58 :=
        mul_lt_mul_of_pos_left hu_ub (by positivity)
      have p2 : 1 / x ^ 2 * (1.58 : ℝ) ≤ 1 / 2.02 ^ 2 * 1.58 :=
        mul_le_mul_of_nonneg_right hxi2 (by norm_num)
      have hQ7a : 7 / (1 + (7 * x - 14.14) ^ 2) ≤ 7 := by
        rw [div_le_iff hQ]
        nlinarith [sq_nonneg (7 * x - 14.14)]
      have hKb : 7 * 14.14 / (14.14 ^ 2 + 1) - 1 / x ≤
          7 * 14.14 / (14.14 ^ 2 + 1) - 1 / 2.6 := by
        have hxi : 1 / (2.6 : ℝ) ≤ 1 / x := by
          rw [div_le_div_iff (by norm_num) hx]
          linarith
        linarith
      have ht2 : (7 * 14.14 / (14.14 ^ 2 + 1) - 1 / x) *
          (7 / (1 + (7 * x - 14.14) ^ 2)) ≤
          (7 * 14.14 / (14.14 ^ 2 + 1) - 1 / 2.6) * 7 := by
        rcases le_or_lt 0 (7 * 14.14 / (14.14 ^ 2 + 1) - 1 / x) with hp | hp
        · calc (7 * 14.14 / (14.14 ^ 2 + 1) - 1 / x) *
              (7 / (1 + (7 * x - 14.14) ^ 2))
              ≤ (7 * 14.14 / (14.14 ^ 2 + 1) - 1 / x) * 7 :=
                mul_le_mul_of_nonneg_left hQ7a hp
            _ ≤ (7 * 14.14 / (14.14 ^ 2 + 1) - 1 / 2.6) * 7 :=
                mul_le_mul_of_nonneg_right hKb (by norm_num)
        · have hz : (7 * 14.14 / (14.14 ^ 2 + 1) - 1 / x) *
              (7 / (1 + (7 * x - 14.14) ^ 2)) ≤ 0 :=
            mul_nonpos_of_nonpos_of_nonneg hp.le (by positivity)
          have hnn : (0 : ℝ) ≤ (7 * 14.14 / (14.14 ^ 2 + 1) - 1 / 2.6) * 7 := by
            norm_num
          linarith
      linarith [hA, hB, p1, p2, ht2, h2x, ht3_lb, hx]
    · have hA : 6.399 / 5.2 ^ 2 ≤ 6.399 / x ^ 2 := by
        rw [div_le_div_iff (by norm_num) hx2]
        nlinarith
      have hB : 2.541 / 5.2 ≤ 2.541 / x := by
        rw [div_le_div_iff (by norm_num) hx]
        linarith
      have hxi2 : 1 / x ^ 2 ≤ 1 / 2.6 ^ 2 := by
        rw [div_le_div_iff hx2 (by norm_num)]
        nlinarith
      have p1 : 1 / x ^ 2 * Real.arctan (7 * x - 14.14) < 1 / x ^ 2 * 1.58 :=
        mul_lt_mul_of_pos_left hu_ub (by positivity)
      have p2 : 1 / x ^ 2 * (1.58 : ℝ) ≤ 1 / 2.6 ^ 2 * 1.58 :=
        mul_le_mul_of_nonneg_right hxi2 (by norm_num)
      have hQge : 7 / (1 + (7 * x - 14.14) ^ 2) ≤ 7 / 17.4836 := by
        rw [div_le_div_iff hQ (by norm_num)]
        nlinarith [mul_nonneg (by linarith : (0 : ℝ) ≤ 7 * x - 14.14 - 4.06)
          (by linarith : (0 : ℝ) ≤ 7 * x - 14.14 + 4.06)]
      have hKb : 7 * 14.14 / (14.14 ^ 2 + 1) - 1 / x ≤
          7 * 14.14 / (14.14 ^ 2 + 1) - 1 / 5.2 := by
        have hxi : 1 / (5.2 : ℝ) ≤ 1 / x := by
          rw [div_le_div_iff (by norm_num) hx]
          linarith
        linarith
      have ht2 : (7 * 14.14 / (14.14 ^ 2 + 1) - 1 / x) *
          (7 / (1 + (7 * x - 14.14) ^ 2)) ≤
          (7 * 14.14 / (14.14 ^ 2 + 1) - 1 / 5.2) * (7 / 17.4836) :=
        mul_le_mul hKb hQge (by positivity) (by norm_num)
      linarith [hA, hB, p1, p2, ht2, h2x, ht3_lb, hx]

/-- The log-vapor-pressure formula is strictly increasing on the validity
range `[0.66, 5.2]`. -/
theorem lnPfun_strictMonoOn : StrictMonoOn lnPfun (Set.Icc 0.66 5.2) := by
  apply strictMonoOn_of_deriv_pos (convex_Icc _ _)
  · intro y hy
    exact (lnPfun_hasDerivAt y
      (lt_of_lt_of_le (by norm_num) hy.1)).continuousAt.continuousWithinAt
  · intro y hy
    rw [interior_Icc] at hy
    rw [(lnPfun_hasDerivAt y (lt_of_lt_of_le (by norm_num) hy.1.le)).deriv]
    exact lnPderiv_pos y hy.1.le hy.2.le

/-- C8: for every `T` in the validity range, `HeVaporPressure` succeeds and
its value `P` round-trips: `T` satisfies the `HeTemperature` relation at `P`,
and it is the only value satisfying it (the bracketed root is unique because
the vapor-pressure formula is strictly increasing on the bracket);
additionally `HeTemperature` at `P = 0` holds exactly of `T = 0`, by the
special case that bypasses the root-finder. -/
theorem heTemperature_roundtrip (T : ℝ) (h1 : 0.66 ≤ T) (h2 : T ≤ 5.2) :
    (∃ P, HeVaporPressure T = .ok P ∧ HeTemperature P T ∧
      ∀ T', HeTemperature P T' → T' = T) ∧
    HeTemperature 0 0 ∧ ∀ T', HeTemperature 0 T' → T' = 0 := by
  have hPpos : 0 < Real.exp (lnPfun T) := Real.exp_pos _
  refine ⟨⟨Real.exp (lnPfun T), ?_, ?_, ?_⟩, ?_, ?_⟩
  · unfold HeVaporPressure
    rw [if_pos ⟨h1, h2⟩]
  · unfold HeTemperature
    rw [if_neg (ne_of_gt hPpos)]
    exact ⟨h1, h2, sub_self _⟩
  · intro T' hT'
    unfold HeTemperature at hT'
    rw [if_neg (ne_of_gt hPpos)] at hT'
    obtain ⟨ha, hb, hroot⟩ := hT'
    have hroot' : Real.exp (lnPfun T') - Real.exp (lnPfun T) = 0 := hroot
    have hexp : Real.exp (lnPfun T') = Real.exp (lnPfun T) := by linarith
    have hln : lnPfun T' = lnPfun T := Real.exp_injective hexp
    exact lnPfun_strictMonoOn.injOn (Set.mem_Icc.mpr ⟨ha, hb⟩)
      (Set.mem_Icc.mpr ⟨h1, h2⟩) hln
  · unfold HeTemperature
    rw [if_pos rfl]
  · intro T' h
    unfold HeTemperature at h
    rwa [if_pos rfl] at h

/-- C8 witness: the round-trip statement applied at `T = 1`. -/
theorem heTemperature_roundtrip_witness :
    ((0.66 : ℝ) ≤ 1 ∧ (1 : ℝ) ≤ 5.2) ∧
    ((∃ P, HeVaporPressure 1 = .ok P ∧ HeTemperature P 1 ∧
      ∀ T', HeTemperature P T' → T' = 1) ∧
     HeTemperature 0 0 ∧ ∀ T', HeTemperature 0 T' → T' = 0) :=
  ⟨⟨by norm_num, by norm_num⟩,
    heTemperature_roundtrip 1 (by norm_num) (by norm_num)⟩

/-- C4 counterexample: with a fit of reduced chi-square 2, the pipeline
reports the saturation fit's error as the raw standard error 1, not the
scaled value `1 * max(2/1, 1) = 2` the claimed rule requires. -/
theorem satfit_error_reported_unscaled :
    (Transmission exC fitB).map (Option.map fun o =>
      (o.satfitresult.err, o.satfitresult.chi2, o.satfitresult.ndf)) = .ok (some (1, 2, 1)) ∧
    (1 : ℝ) ≠ 1 * max ((2 : ℝ) / 1) 1 := by
  constructor
  · rw [transmission_exC_eq]
    rfl
  · rw [show ((2 : ℝ) / 1) = 2 by norm_num, max_eq_left (by norm_num : (1 : ℝ) ≤ 2)]
    norm_num

end
